import Mathlib

/-!
Pong: a shallow embedding of `src/main.go`.

The game logic of the repository (`Paddle`, `Ball`, `Game` and the methods that
`Game.Update` calls) is translated function by function.

Modelling conventions.

* There are two layers.  The first follows the code with unbounded integers
  (`Int` for Go `int`) and exact rationals (`ℚ` for `float64`); it is what the
  code computes as long as no `int` operation overflows and every `float64`
  result is representable.  The second layer (names ending in `64`) follows the
  same functions
  with 64-bit wrapping `int` operations, the `float64` rounding of
  `g.ballSpeed += 1` and the machine's float-to-`int` conversion; statements
  that range over every `int` or every scalar are made about it.
* Go integer division `/` truncates toward zero and is `Int.tdiv`.
* The conversion `int(f)` is truncation toward zero (`truncToInt`, and
  `floatToInt64` on the machine).  NaN and the infinities are outside both
  layers.
* The package globals `screenWidth`, `screenHeight` are the fields of `Screen`,
  passed explicitly; the keyboard queries `ebiten.IsKeyPressed` are the fields of
  `Keys`.
* A method with a pointer receiver becomes a function that returns the updated
  receiver.  `Game.Update` always returns `nil`; only the new state is kept.
-/

namespace Pong

/-- Constant `ballSpeed = 3.0`. -/
def ballSpeed : ℚ := 3

/-- Constant `paddleSpeed = 6.0`. -/
def paddleSpeed : ℚ := 6

/-- Go conversion `int(f)` of a float: the fractional part is discarded
(truncation toward zero). -/
def truncToInt (q : ℚ) : Int := Int.tdiv q.num q.den

/-- Package globals `screenWidth`, `screenHeight`. -/
structure Screen where
  screenWidth : Int
  screenHeight : Int
deriving DecidableEq, Repr

/-- Results of `ebiten.IsKeyPressed(ebiten.KeyArrowDown)` and
`ebiten.IsKeyPressed(ebiten.KeyArrowUp)` during one tick. -/
structure Keys where
  arrowDown : Bool
  arrowUp : Bool
deriving DecidableEq, Repr

/-- Go `type Object struct { X, Y, W, H int }`. -/
structure Object where
  X : Int
  Y : Int
  W : Int
  H : Int
deriving DecidableEq, Repr

/-- Go `type Paddle struct { Object }`. -/
structure Paddle extends Object
deriving DecidableEq, Repr

/-- Go `type Ball struct { Object; dxdt, dydt float64 }`. -/
structure Ball extends Object where
  dxdt : ℚ
  dydt : ℚ
deriving DecidableEq, Repr

/-- Go `type Game struct`. -/
structure Game where
  playerPaddle : Paddle
  computerPaddle : Paddle
  ball : Ball
  playerScore : Int
  computerScore : Int
  highScore : Int
  ballSpeed : ℚ
deriving DecidableEq, Repr

/-- The screen size set at the start of `main`: the monitor size, halved. -/
def mainScreen (fullScreenWidth fullScreenHeight : Int) : Screen :=
  { screenWidth := Int.tdiv fullScreenWidth 2
    screenHeight := Int.tdiv fullScreenHeight 2 }

/-- The game instance built by `main` (the scores are zero-initialised). -/
def mainGame (scr : Screen) : Game :=
  { playerPaddle :=
      { X := scr.screenWidth - 40, Y := Int.tdiv (scr.screenHeight - 100) 2, W := 15, H := 100 }
    computerPaddle :=
      { X := 25, Y := Int.tdiv (scr.screenHeight - 100) 2, W := 15, H := 100 }
    ball :=
      { X := Int.tdiv scr.screenWidth 2, Y := Int.tdiv scr.screenHeight 2, W := 15, H := 15
        dxdt := ballSpeed, dydt := ballSpeed }
    playerScore := 0
    computerScore := 0
    highScore := 0
    ballSpeed := ballSpeed }

/-- Go `func (p *Paddle) MoveOnKeyPress()`. -/
def Paddle.MoveOnKeyPress (scr : Screen) (keys : Keys) (p : Paddle) : Paddle :=
  let p : Paddle :=
    if keys.arrowDown = true then
      if p.Y + p.H < scr.screenHeight then { p with Y := p.Y + truncToInt paddleSpeed } else p
    else p
  let p : Paddle :=
    if keys.arrowUp = true then
      if p.Y > 0 then { p with Y := p.Y - truncToInt paddleSpeed } else p
    else p
  p

/-- Go `func (b *Ball) Move()`. -/
def Ball.Move (b : Ball) : Ball :=
  let b : Ball := { b with X := b.X + truncToInt b.dxdt }
  let b : Ball := { b with Y := b.Y + truncToInt b.dydt }
  b

/-- Go `func (g *Game) Reset()`. -/
def Game.Reset (scr : Screen) (g : Game) : Game :=
  let g : Game := { g with ball := { g.ball with X := Int.tdiv (scr.screenWidth - g.ball.W) 2 } }
  let g : Game := { g with ball := { g.ball with Y := Int.tdiv (scr.screenHeight - g.ball.H) 2 } }
  let g : Game := { g with ball := { g.ball with dxdt := -g.ball.dxdt } }
  let g : Game := { g with ballSpeed := Pong.ballSpeed }
  let g : Game := { g with ball := { g.ball with dxdt := g.ballSpeed } }
  let g : Game := { g with ball := { g.ball with dydt := g.ballSpeed } }
  g

/-- Go `func (g *Game) CollideWithWall()`. -/
def Game.CollideWithWall (scr : Screen) (g : Game) : Game :=
  let g : Game :=
    if g.ball.X ≥ scr.screenWidth then
      Game.Reset scr { g with computerScore := g.computerScore + 1 }
    else g
  let g : Game :=
    if g.ball.X ≤ 0 then
      let g : Game := { g with playerScore := g.playerScore + 1 }
      let g : Game := if g.playerScore > g.highScore then { g with highScore := g.playerScore } else g
      Game.Reset scr g
    else g
  let g : Game :=
    if g.ball.Y ≤ 0 then
      { g with ball := { g.ball with dydt := Pong.ballSpeed } }
    else if g.ball.Y ≥ scr.screenHeight then
      { g with ball := { g.ball with dydt := -Pong.ballSpeed } }
    else g
  g

/-- Go `func (g *Game) CollideWithPlayerPaddle()`. -/
def Game.CollideWithPlayerPaddle (g : Game) : Game :=
  if g.ball.X + g.ball.W ≥ g.playerPaddle.X ∧ g.ball.Y + g.ball.H ≥ g.playerPaddle.Y
      ∧ g.ball.Y ≤ g.playerPaddle.Y + g.playerPaddle.H then
    { g with ball := { g.ball with dxdt := -g.ball.dxdt } }
  else g

/-- Go `func (g *Game) CollideWithComputerPaddle()`. -/
def Game.CollideWithComputerPaddle (g : Game) : Game :=
  if g.ball.X ≤ g.computerPaddle.X + g.computerPaddle.W ∧ g.ball.Y + g.ball.H ≥ g.computerPaddle.Y
      ∧ g.ball.Y ≤ g.computerPaddle.Y + g.computerPaddle.H then
    let g : Game := { g with ball := { g.ball with dxdt := -g.ball.dxdt } }
    let g : Game := { g with ballSpeed := g.ballSpeed + 1 }
    let g : Game := { g with ball := { g.ball with dxdt := g.ballSpeed } }
    let g : Game := { g with ball := { g.ball with dydt := g.ballSpeed } }
    g
  else g

/-- Go `func (p *Paddle) MoveToFollowBall(ballY int, speed int)`. -/
def Paddle.MoveToFollowBall (scr : Screen) (ballY speed : Int) (p : Paddle) : Paddle :=
  let center : Int := p.Y + Int.tdiv p.H 2
  let p : Paddle := if center < ballY then { p with Y := p.Y + speed } else p
  let p : Paddle := if center > ballY then { p with Y := p.Y - speed } else p
  let p : Paddle := if p.Y < 0 then { p with Y := 0 } else p
  let p : Paddle := if p.Y + p.H > scr.screenHeight then { p with Y := scr.screenHeight - p.H } else p
  p

/-- Go `func (g *Game) Update() error`; the returned error is always `nil`. -/
def Game.Update (scr : Screen) (keys : Keys) (g : Game) : Game :=
  let g : Game := { g with playerPaddle := Paddle.MoveOnKeyPress scr keys g.playerPaddle }
  let ballCenter : Int := g.ball.Y + Int.tdiv g.ball.H 2
  let aiSpeed : Int := truncToInt (paddleSpeed - 3)
  let g : Game :=
    { g with computerPaddle := Paddle.MoveToFollowBall scr ballCenter aiSpeed g.computerPaddle }
  let g : Game := { g with ball := Ball.Move g.ball }
  let g : Game := Game.CollideWithWall scr g
  let g : Game := Game.CollideWithPlayerPaddle g
  let g : Game := Game.CollideWithComputerPaddle g
  g

/-- The state after running `Update` once per entry of `ks`, first entry first. -/
def Game.run (scr : Screen) (ks : List Keys) (g : Game) : Game :=
  ks.foldl (fun st k => Game.Update scr k st) g

/-- States the match can be in: the one built by `main`, and every state one
`Update` tick after such a state, whatever the keys. -/
inductive Reachable (scr : Screen) : Game → Prop
  | init : Reachable scr (mainGame scr)
  | tick (keys : Keys) (g : Game) : Reachable scr g → Reachable scr (Game.Update scr keys g)



/-! ## Derived notions used in the statements -/

/-- The computer-paddle test of `CollideWithComputerPaddle`. -/
def Game.hitsComputerPaddle (g : Game) : Prop :=
  g.ball.X ≤ g.computerPaddle.X + g.computerPaddle.W ∧ g.ball.Y + g.ball.H ≥ g.computerPaddle.Y
    ∧ g.ball.Y ≤ g.computerPaddle.Y + g.computerPaddle.H

instance (g : Game) : Decidable g.hitsComputerPaddle := by
  unfold Game.hitsComputerPaddle
  infer_instance

/-- What the collision code keeps true of the velocity: the horizontal
magnitude is the speed scalar, the vertical component is `+3`, `-3` or the
speed scalar, and the scalar is at least the base speed. -/
def VelocityInv (g : Game) : Prop :=
  |g.ball.dxdt| = g.ballSpeed
    ∧ (g.ball.dydt = ballSpeed ∨ g.ball.dydt = -ballSpeed ∨ g.ball.dydt = g.ballSpeed)
    ∧ ballSpeed ≤ g.ballSpeed

instance (g : Game) : Decidable (VelocityInv g) := by
  unfold VelocityInv
  infer_instance

/-! ## Concrete screens, keys and states used as examples -/

/-- The screen `main` sets up on a 1920x1080 monitor. -/
def hdScreen : Screen := { screenWidth := 960, screenHeight := 540 }

/-- No arrow key held. -/
def noKey : Keys := { arrowDown := false, arrowUp := false }

/-- Only the down arrow held. -/
def downKey : Keys := { arrowDown := true, arrowUp := false }

/-- A ball that has just reached the left wall, with player score 4 and high
score 3. -/
def leftWallState : Game :=
  { playerPaddle := ⟨⟨920, 220, 15, 100⟩⟩
    computerPaddle := ⟨⟨25, 440, 15, 100⟩⟩
    ball := { X := 0, Y := 300, W := 15, H := 15, dxdt := -5, dydt := 3 }
    playerScore := 4
    computerScore := 2
    highScore := 3
    ballSpeed := 5 }

/-- A ball exactly at `X = screenWidth` on `hdScreen`, with a ramped speed. -/
def rightWallState : Game :=
  { playerPaddle := ⟨⟨920, 100, 15, 100⟩⟩
    computerPaddle := ⟨⟨25, 380, 15, 100⟩⟩
    ball := { X := 960, Y := 420, W := 15, H := 15, dxdt := 6, dydt := -3 }
    playerScore := 1
    computerScore := 7
    highScore := 1
    ballSpeed := 6 }

/-- A ball inside the computer paddle's test region that moves to the right
(positive horizontal velocity), speed scalar 3. -/
def rightMovingHitState : Game :=
  { playerPaddle := ⟨⟨920, 220, 15, 100⟩⟩
    computerPaddle := ⟨⟨25, 220, 15, 100⟩⟩
    ball := { X := 30, Y := 250, W := 15, H := 15, dxdt := 3, dydt := -3 }
    playerScore := 0
    computerScore := 0
    highScore := 0
    ballSpeed := 3 }

/-- A ball arriving at the computer paddle from the right, moving up. -/
def leftMovingHitState : Game :=
  { playerPaddle := ⟨⟨920, 220, 15, 100⟩⟩
    computerPaddle := ⟨⟨25, 220, 15, 100⟩⟩
    ball := { X := 39, Y := 250, W := 15, H := 15, dxdt := -3, dydt := -3 }
    playerScore := 0
    computerScore := 0
    highScore := 0
    ballSpeed := 3 }

/-- The player is one point from a new high score and the ball is 3 from the
left wall, out of the computer paddle's reach. -/
def aboutToScoreState : Game :=
  { playerPaddle := ⟨⟨920, 220, 15, 100⟩⟩
    computerPaddle := ⟨⟨25, 40, 15, 100⟩⟩
    ball := { X := 3, Y := 300, W := 15, H := 15, dxdt := -3, dydt := 3 }
    playerScore := 4
    computerScore := 0
    highScore := 4
    ballSpeed := 3 }

/-- The match on `hdScreen` after 85 ticks without keys: the ball's bottom edge
`525 + 15` has reached the screen height 540. -/
def bottomEdgeState : Game :=
  { playerPaddle := ⟨⟨920, 220, 15, 100⟩⟩
    computerPaddle := ⟨⟨25, 440, 15, 100⟩⟩
    ball := { X := 735, Y := 525, W := 15, H := 15, dxdt := 3, dydt := 3 }
    playerScore := 0
    computerScore := 0
    highScore := 0
    ballSpeed := 3 }

/-- The match on `hdScreen` after 20 ticks with the down key and 130 without. -/
def rallyState150 : Game :=
  { playerPaddle := ⟨⟨920, 340, 15, 100⟩⟩
    computerPaddle := ⟨⟨25, 320, 15, 100⟩⟩
    ball := { X := 882, Y := 360, W := 15, H := 15, dxdt := -3, dydt := -3 }
    playerScore := 0
    computerScore := 0
    highScore := 0
    ballSpeed := 3 }

/-- The same match after 150 more ticks without keys. -/
def rallyState300 : Game :=
  { playerPaddle := ⟨⟨920, 340, 15, 100⟩⟩
    computerPaddle := ⟨⟨25, 45, 15, 100⟩⟩
    ball := { X := 432, Y := 90, W := 15, H := 15, dxdt := -3, dydt := 3 }
    playerScore := 0
    computerScore := 0
    highScore := 0
    ballSpeed := 3 }

/-- The same match after 146 more ticks without keys (tick 446): the computer
paddle has returned the ball (speed scalar 4) and the ball has then bounced off
the bottom wall (vertical velocity -3). -/
def rallyState446 : Game :=
  { playerPaddle := ⟨⟨920, 340, 15, 100⟩⟩
    computerPaddle := ⟨⟨25, 440, 15, 100⟩⟩
    ball := { X := 99, Y := 543, W := 15, H := 15, dxdt := 4, dydt := -3 }
    playerScore := 0
    computerScore := 0
    highScore := 0
    ballSpeed := 4 }

/-! ## Definitions for the later statements -/

/-- The player-paddle test of `CollideWithPlayerPaddle`. -/
def Game.hitsPlayerPaddle (g : Game) : Prop :=
  g.ball.X + g.ball.W ≥ g.playerPaddle.X ∧ g.ball.Y + g.ball.H ≥ g.playerPaddle.Y
    ∧ g.ball.Y ≤ g.playerPaddle.Y + g.playerPaddle.H

instance (g : Game) : Decidable g.hitsPlayerPaddle := by
  unfold Game.hitsPlayerPaddle
  infer_instance

/-- `VelocityInv` together with the speed scalar being a whole number. -/
def WholeVelocityInv (g : Game) : Prop :=
  VelocityInv g ∧ g.ballSpeed.den = 1

instance (g : Game) : Decidable (WholeVelocityInv g) := by
  unfold WholeVelocityInv
  infer_instance

/-- Rounding toward zero as the specification words it: the floor of a
non-negative number, the ceiling of a negative one. -/
def roundTowardZero (q : ℚ) : Int := if 0 ≤ q then ⌊q⌋ else ⌈q⌉

/-- The clamp of the specification: `x` brought into `[lo, hi]`. -/
def clamp (x lo hi : Int) : Int := if x < lo then lo else if x > hi then hi else x

/-- The specification's wording of the new `Y` of `MoveToFollowBall`: with the
centre `c = Y + H/2`, the step is `+v` when `c < t`, `-v` when `c > t` and `0`
when `c = t`, and the result is clamped into `[0, sh - H]`. -/
def followBallSpecY (sh t v : Int) (p : Paddle) : Int :=
  let c : Int := p.Y + Int.tdiv p.H 2
  let d : Int := if c < t then v else if c > t then -v else 0
  clamp (p.Y + d) 0 (sh - p.H)

/-- The ball after `n` consecutive calls of `Move`. -/
def Ball.moveN : Nat → Ball → Ball
  | 0, b => b
  | n + 1, b => Ball.moveN n (Ball.Move b)

/-- A 16-wide screen, one below the width bound of the scoring branches. -/
def narrowScreen : Screen := { screenWidth := 16, screenHeight := 540 }

/-- A ball above the top wall with the speed scalar ramped to 7. -/
def topWallState : Game :=
  { playerPaddle := ⟨⟨920, 220, 15, 100⟩⟩
    computerPaddle := ⟨⟨25, 0, 15, 100⟩⟩
    ball := { X := 500, Y := -2, W := 15, H := 15, dxdt := 7, dydt := -3 }
    playerScore := 0
    computerScore := 0
    highScore := 0
    ballSpeed := 7 }

/-- A ball overlapping the player paddle, moving right. -/
def playerHitState : Game :=
  { playerPaddle := ⟨⟨920, 220, 15, 100⟩⟩
    computerPaddle := ⟨⟨25, 200, 15, 100⟩⟩
    ball := { X := 906, Y := 250, W := 15, H := 15, dxdt := 3, dydt := 3 }
    playerScore := 0
    computerScore := 0
    highScore := 0
    ballSpeed := 3 }

/-- The match on `hdScreen` after 155 ticks without keys: the ball's right edge
`945 + 15` has reached the screen width 960. -/
def rightEdgeState : Game :=
  { playerPaddle := ⟨⟨920, 220, 15, 100⟩⟩
    computerPaddle := ⟨⟨25, 305, 15, 100⟩⟩
    ball := { X := 945, Y := 345, W := 15, H := 15, dxdt := 3, dydt := -3 }
    playerScore := 0
    computerScore := 0
    highScore := 0
    ballSpeed := 3 }

/-- A ball past the right edge of `narrowScreen`. -/
def narrowRightWallState : Game :=
  { playerPaddle := ⟨⟨-24, 220, 15, 100⟩⟩
    computerPaddle := ⟨⟨25, 220, 15, 100⟩⟩
    ball := { X := 17, Y := 300, W := 15, H := 15, dxdt := 3, dydt := 3 }
    playerScore := 2
    computerScore := 5
    highScore := 2
    ballSpeed := 3 }

/-- A ball with the fractional velocity `(1/2, -3/2)`. -/
def halfSpeedBall : Ball :=
  { X := 100, Y := 100, W := 15, H := 15, dxdt := 1 / 2, dydt := -3 / 2 }

/-- The computer paddle at the top of `hdScreen` with its centre at 50. -/
def restingPaddle : Paddle := ⟨⟨25, 0, 15, 100⟩⟩

/-- The first three steps of `Update`: both paddles and the ball moved, before
any collision check. -/
def Game.moveAll (scr : Screen) (keys : Keys) (g : Game) : Game :=
  { g with
    playerPaddle := Paddle.MoveOnKeyPress scr keys g.playerPaddle
    computerPaddle :=
      Paddle.MoveToFollowBall scr (g.ball.Y + Int.tdiv g.ball.H 2)
        (truncToInt (paddleSpeed - 3)) g.computerPaddle
    ball := Ball.Move g.ball }

/-! ## The machine-level model: 64-bit `int` and `float64`

The definitions above compute with unbounded integers and exact rationals, which
is what the code does as long as no `int` operation overflows and every
`float64` result is representable.  The definitions of this section follow the
same source functions but wrap every `int` operation to 64 bits (Go `int` on a
64-bit target), round `g.ballSpeed += 1` to the nearest `float64`, and convert
floats to `int` as the machine does. -/

/-- The value an `int` operation stores: the mathematical result reduced to
the two's-complement range `[-2^63, 2^63)`. -/
def wrap64 (x : Int) : Int :=
  (x + 9223372036854775808) % 18446744073709551616 - 9223372036854775808

/-- `x` is a value of Go `int`: `-2^63 ≤ x ≤ 2^63 - 1`. -/
def InInt64 (x : Int) : Prop := -9223372036854775808 ≤ x ∧ x ≤ 9223372036854775807

instance (x : Int) : Decidable (InInt64 x) := by
  unfold InInt64
  infer_instance

/-- The rational `2^e`. -/
def pow2 (e : Int) : ℚ :=
  if 0 ≤ e then ((2 ^ e.toNat : Nat) : ℚ) else 1 / ((2 ^ (-e).toNat : Nat) : ℚ)

/-- Halving `n` until it is below 2, at most `fuel` times, counting the steps. -/
def floorLog2Aux : Nat → Nat → Nat
  | 0, _ => 0
  | fuel + 1, n => if 2 ≤ n then floorLog2Aux fuel (n / 2) + 1 else 0

/-- The position of the leading binary digit of `n`: `⌊log₂ n⌋` (and 0 for 0). -/
def floorLog2 (n : Nat) : Nat := floorLog2Aux n n

/-- The exponent of the leading binary digit of a non-zero rational: the `e`
with `2^e ≤ |q| < 2^(e+1)`. -/
def binaryExponent (q : ℚ) : Int :=
  let e0 : Int := (floorLog2 q.num.natAbs : Int) - (floorLog2 q.den : Int)
  if pow2 e0 ≤ |q| then e0 else e0 - 1

/-- Rounding to the nearest integer, ties to the even one. -/
def roundHalfEven (q : ℚ) : Int :=
  if q - ⌊q⌋ < 1 / 2 then ⌊q⌋
  else if 1 / 2 < q - ⌊q⌋ then ⌊q⌋ + 1
  else if ⌊q⌋ % 2 = 0 then ⌊q⌋ else ⌊q⌋ + 1

/-- The `float64` nearest to `q` (IEEE 754 binary64, round to nearest, ties to
even): 53 significant bits, least exponent -1022.  Results beyond the largest
finite `float64` are outside the model; `x + 1` cannot produce one. -/
def float64Round (q : ℚ) : ℚ :=
  if q = 0 then 0
  else
    let e : Int := max (binaryExponent q) (-1022)
    (roundHalfEven (q / pow2 (e - 52)) : ℚ) * pow2 (e - 52)

/-- Go conversion `int(f)` of a `float64` as compiled for amd64: the truncated
value when it is an `int`, and `-2^63` otherwise (the Go specification leaves
that case to the implementation). -/
def floatToInt64 (q : ℚ) : Int :=
  if InInt64 (truncToInt q) then truncToInt q else -9223372036854775808

/-- The game instance built by `main`, with 64-bit `int`. -/
def mainGame64 (scr : Screen) : Game :=
  { playerPaddle :=
      { X := wrap64 (scr.screenWidth - 40), Y := Int.tdiv (wrap64 (scr.screenHeight - 100)) 2
        W := 15, H := 100 }
    computerPaddle :=
      { X := 25, Y := Int.tdiv (wrap64 (scr.screenHeight - 100)) 2, W := 15, H := 100 }
    ball :=
      { X := Int.tdiv scr.screenWidth 2, Y := Int.tdiv scr.screenHeight 2, W := 15, H := 15
        dxdt := ballSpeed, dydt := ballSpeed }
    playerScore := 0
    computerScore := 0
    highScore := 0
    ballSpeed := ballSpeed }

/-- Go `func (p *Paddle) MoveOnKeyPress()` with 64-bit `int`; `int(paddleSpeed)`
is the constant 6. -/
def Paddle.MoveOnKeyPress64 (scr : Screen) (keys : Keys) (p : Paddle) : Paddle :=
  let p : Paddle :=
    if keys.arrowDown = true then
      if wrap64 (p.Y + p.H) < scr.screenHeight then { p with Y := wrap64 (p.Y + 6) } else p
    else p
  let p : Paddle :=
    if keys.arrowUp = true then
      if p.Y > 0 then { p with Y := wrap64 (p.Y - 6) } else p
    else p
  p

/-- Go `func (b *Ball) Move()` with 64-bit `int`. -/
def Ball.Move64 (b : Ball) : Ball :=
  let b : Ball := { b with X := wrap64 (b.X + floatToInt64 b.dxdt) }
  let b : Ball := { b with Y := wrap64 (b.Y + floatToInt64 b.dydt) }
  b

/-- Go `func (g *Game) Reset()` with 64-bit `int`. -/
def Game.Reset64 (scr : Screen) (g : Game) : Game :=
  let g : Game :=
    { g with ball := { g.ball with X := Int.tdiv (wrap64 (scr.screenWidth - g.ball.W)) 2 } }
  let g : Game :=
    { g with ball := { g.ball with Y := Int.tdiv (wrap64 (scr.screenHeight - g.ball.H)) 2 } }
  let g : Game := { g with ball := { g.ball with dxdt := -g.ball.dxdt } }
  let g : Game := { g with ballSpeed := Pong.ballSpeed }
  let g : Game := { g with ball := { g.ball with dxdt := g.ballSpeed } }
  let g : Game := { g with ball := { g.ball with dydt := g.ballSpeed } }
  g

/-- Go `func (g *Game) CollideWithWall()` with 64-bit `int`. -/
def Game.CollideWithWall64 (scr : Screen) (g : Game) : Game :=
  let g : Game :=
    if g.ball.X ≥ scr.screenWidth then
      Game.Reset64 scr { g with computerScore := wrap64 (g.computerScore + 1) }
    else g
  let g : Game :=
    if g.ball.X ≤ 0 then
      let g : Game := { g with playerScore := wrap64 (g.playerScore + 1) }
      let g : Game := if g.playerScore > g.highScore then { g with highScore := g.playerScore } else g
      Game.Reset64 scr g
    else g
  let g : Game :=
    if g.ball.Y ≤ 0 then
      { g with ball := { g.ball with dydt := Pong.ballSpeed } }
    else if g.ball.Y ≥ scr.screenHeight then
      { g with ball := { g.ball with dydt := -Pong.ballSpeed } }
    else g
  g

/-- The player-paddle test as the machine evaluates it. -/
def Game.hitsPlayerPaddle64 (g : Game) : Prop :=
  wrap64 (g.ball.X + g.ball.W) ≥ g.playerPaddle.X ∧ wrap64 (g.ball.Y + g.ball.H) ≥ g.playerPaddle.Y
    ∧ g.ball.Y ≤ wrap64 (g.playerPaddle.Y + g.playerPaddle.H)

instance (g : Game) : Decidable g.hitsPlayerPaddle64 := by
  unfold Game.hitsPlayerPaddle64
  infer_instance

/-- The computer-paddle test as the machine evaluates it. -/
def Game.hitsComputerPaddle64 (g : Game) : Prop :=
  g.ball.X ≤ wrap64 (g.computerPaddle.X + g.computerPaddle.W)
    ∧ wrap64 (g.ball.Y + g.ball.H) ≥ g.computerPaddle.Y
    ∧ g.ball.Y ≤ wrap64 (g.computerPaddle.Y + g.computerPaddle.H)

instance (g : Game) : Decidable g.hitsComputerPaddle64 := by
  unfold Game.hitsComputerPaddle64
  infer_instance

/-- Go `func (g *Game) CollideWithPlayerPaddle()` with 64-bit `int`. -/
def Game.CollideWithPlayerPaddle64 (g : Game) : Game :=
  if wrap64 (g.ball.X + g.ball.W) ≥ g.playerPaddle.X
      ∧ wrap64 (g.ball.Y + g.ball.H) ≥ g.playerPaddle.Y
      ∧ g.ball.Y ≤ wrap64 (g.playerPaddle.Y + g.playerPaddle.H) then
    { g with ball := { g.ball with dxdt := -g.ball.dxdt } }
  else g

/-- Go `func (g *Game) CollideWithComputerPaddle()` with 64-bit `int` and the
`float64` addition `g.ballSpeed += 1`. -/
def Game.CollideWithComputerPaddle64 (g : Game) : Game :=
  if g.ball.X ≤ wrap64 (g.computerPaddle.X + g.computerPaddle.W)
      ∧ wrap64 (g.ball.Y + g.ball.H) ≥ g.computerPaddle.Y
      ∧ g.ball.Y ≤ wrap64 (g.computerPaddle.Y + g.computerPaddle.H) then
    let g : Game := { g with ball := { g.ball with dxdt := -g.ball.dxdt } }
    let g : Game := { g with ballSpeed := float64Round (g.ballSpeed + 1) }
    let g : Game := { g with ball := { g.ball with dxdt := g.ballSpeed } }
    let g : Game := { g with ball := { g.ball with dydt := g.ballSpeed } }
    g
  else g

/-- Go `func (p *Paddle) MoveToFollowBall(ballY int, speed int)` with 64-bit
`int`. -/
def Paddle.MoveToFollowBall64 (scr : Screen) (ballY speed : Int) (p : Paddle) : Paddle :=
  let center : Int := wrap64 (p.Y + Int.tdiv p.H 2)
  let p : Paddle := if center < ballY then { p with Y := wrap64 (p.Y + speed) } else p
  let p : Paddle := if center > ballY then { p with Y := wrap64 (p.Y - speed) } else p
  let p : Paddle := if p.Y < 0 then { p with Y := 0 } else p
  let p : Paddle :=
    if wrap64 (p.Y + p.H) > scr.screenHeight then { p with Y := wrap64 (scr.screenHeight - p.H) }
    else p
  p

/-- The first three steps of `Update` on the machine: both paddles and the ball
moved, before any collision check; `int(paddleSpeed-3)` is the constant 3. -/
def Game.moveAll64 (scr : Screen) (keys : Keys) (g : Game) : Game :=
  { g with
    playerPaddle := Paddle.MoveOnKeyPress64 scr keys g.playerPaddle
    computerPaddle :=
      Paddle.MoveToFollowBall64 scr (wrap64 (g.ball.Y + Int.tdiv g.ball.H 2)) 3 g.computerPaddle
    ball := Ball.Move64 g.ball }

/-- Go `func (g *Game) Update() error` on the machine. -/
def Game.Update64 (scr : Screen) (keys : Keys) (g : Game) : Game :=
  let g : Game := Game.moveAll64 scr keys g
  let g : Game := Game.CollideWithWall64 scr g
  let g : Game := Game.CollideWithPlayerPaddle64 g
  let g : Game := Game.CollideWithComputerPaddle64 g
  g

/-- States the match can be in on the machine: the one built by `main`, and
every state one `Update` tick after such a state. -/
inductive Reachable64 (scr : Screen) : Game → Prop
  | init : Reachable64 scr (mainGame64 scr)
  | tick (keys : Keys) (g : Game) :
      Reachable64 scr g → Reachable64 scr (Game.Update64 scr keys g)

/-- The ball after `n` consecutive calls of `Move` on the machine. -/
def Ball.moveN64 : Nat → Ball → Ball
  | 0, b => b
  | n + 1, b => Ball.moveN64 n (Ball.Move64 b)

/-- The speed scalar is a whole number between the base speed 3 and `2^53`:
the range in which `g.ballSpeed += 1` stays among the whole numbers. -/
def ScalarInv64 (g : Game) : Prop :=
  g.ballSpeed.den = 1 ∧ 3 ≤ g.ballSpeed ∧ g.ballSpeed ≤ 9007199254740992

instance (g : Game) : Decidable (ScalarInv64 g) := by
  unfold ScalarInv64
  infer_instance

/-- The largest `int`, `2^63 - 1`, used as a speed. -/
def maxInt64 : Int := 9223372036854775807

/-- A ball inside the computer paddle's test region whose speed scalar has
reached `2^53`. -/
def saturatedHitState : Game :=
  { playerPaddle := ⟨⟨920, 220, 15, 100⟩⟩
    computerPaddle := ⟨⟨25, 220, 15, 100⟩⟩
    ball := { X := 30, Y := 250, W := 15, H := 15, dxdt := -9007199254740992, dydt := 3 }
    playerScore := 0
    computerScore := 0
    highScore := 0
    ballSpeed := 9007199254740992 }

/-- The `float64` nearest to 3.1, which is `6980579422424269 / 2^51`. -/
def float3point1 : ℚ := 6980579422424269 / 2251799813685248

/-- A ball about to reach the computer paddle with the fractional speed scalar
`float3point1`. -/
def fractionalHitState : Game :=
  { playerPaddle := ⟨⟨920, 220, 15, 100⟩⟩
    computerPaddle := ⟨⟨25, 220, 15, 100⟩⟩
    ball := { X := 42, Y := 250, W := 15, H := 15, dxdt := -float3point1, dydt := 3 }
    playerScore := 0
    computerScore := 0
    highScore := 0
    ballSpeed := float3point1 }

/-- A ball with the horizontal velocity `1e30`, beyond the `int` range. -/
def farBall : Ball :=
  { X := 100, Y := 100, W := 15, H := 15, dxdt := 1000000000000000000000000000000, dydt := 3 }

/-- `x` has magnitude below `2^61`; sums and differences of three such values
stay inside the `int` range. -/
def Below2Pow61 (x : Int) : Prop := -2305843009213693952 < x ∧ x < 2305843009213693952

instance (x : Int) : Decidable (Below2Pow61 x) := by
  unfold Below2Pow61
  infer_instance

/-! ## Evaluation lemmas for the constants -/

theorem truncToInt_intCast (n : Int) : truncToInt (n : ℚ) = n := by
  simp [truncToInt]

theorem truncToInt_paddleSpeed : truncToInt paddleSpeed = 6 := by
  have h : paddleSpeed = ((6 : Int) : ℚ) := by norm_num [paddleSpeed]
  rw [h, truncToInt_intCast]

theorem truncToInt_aiSpeed : truncToInt (paddleSpeed - 3) = 3 := by
  have h : paddleSpeed - 3 = ((3 : Int) : ℚ) := by norm_num [paddleSpeed]
  rw [h, truncToInt_intCast]

/-! ## Paddles -/

/-- With unbounded integers: when the paddle's height is at most the screen height, `MoveToFollowBall`
leaves the paddle's `Y` in `[0, screenHeight - H]`, whatever the starting `Y`,
the target and the speed; the height itself is not changed. -/
theorem moveToFollowBall_within_screen (scr : Screen) (p : Paddle) (ballY speed : Int)
    (hH : p.H ≤ scr.screenHeight) :
    0 ≤ (Paddle.MoveToFollowBall scr ballY speed p).Y
      ∧ (Paddle.MoveToFollowBall scr ballY speed p).Y
          ≤ scr.screenHeight - (Paddle.MoveToFollowBall scr ballY speed p).H
      ∧ (Paddle.MoveToFollowBall scr ballY speed p).H = p.H := by
  simp only [Paddle.MoveToFollowBall]
  split_ifs <;> simp_all <;> omega

/-- On a 960x540 screen the player paddle built by `main`, after 36 ticks with
the down key held, is at `Y = 436`, inside `[0, 440]`.  One more
`MoveOnKeyPress` with the down key held passes the guard (`536 < 540`) and puts
it at `Y = 442`, below `screenHeight - H = 440`: this is where the code departs
from C2. -/
theorem moveOnKeyPress_passes_bottom :
    (Game.run hdScreen (List.replicate 36 downKey) (mainGame hdScreen)).playerPaddle
        = ⟨⟨920, 436, 15, 100⟩⟩
      ∧ (0 : Int) ≤ 436 ∧ (436 : Int) ≤ 540 - 100
      ∧ (Paddle.MoveOnKeyPress hdScreen downKey ⟨⟨920, 436, 15, 100⟩⟩).Y = 442
      ∧ ¬ ((Paddle.MoveOnKeyPress hdScreen downKey ⟨⟨920, 436, 15, 100⟩⟩).Y
            ≤ 540 - (Paddle.MoveOnKeyPress hdScreen downKey ⟨⟨920, 436, 15, 100⟩⟩).H) := by
  set_option maxRecDepth 1000000 in decide!

/-- What the guards of `MoveOnKeyPress` do give: a paddle inside
`[0, screenHeight - H]` ends at most 5 past either boundary, and its size and
`X` are untouched. -/
theorem moveOnKeyPress_overshoot_bound (scr : Screen) (keys : Keys) (p : Paddle)
    (h0 : 0 ≤ p.Y) (h1 : p.Y ≤ scr.screenHeight - p.H) :
    -5 ≤ (Paddle.MoveOnKeyPress scr keys p).Y
      ∧ (Paddle.MoveOnKeyPress scr keys p).Y ≤ scr.screenHeight - p.H + 5
      ∧ (Paddle.MoveOnKeyPress scr keys p).H = p.H := by
  simp only [Paddle.MoveOnKeyPress, truncToInt_paddleSpeed]
  split_ifs <;> simp_all <;> omega

/-! ## Reset and the walls -/

theorem tdiv_two_bounds (a : Int) : 2 * Int.tdiv a 2 ≤ a + 1 ∧ a - 1 ≤ 2 * Int.tdiv a 2 := by
  rcases le_total 0 a with h | h
  · rw [Int.tdiv_eq_ediv h (by decide)]
    omega
  · have hneg : a = -(-a) := by omega
    have hpos : (0 : Int) ≤ -a := by omega
    rw [hneg, Int.neg_tdiv, Int.tdiv_eq_ediv hpos (by decide)]
    omega

theorem update_eq (scr : Screen) (keys : Keys) (g : Game) :
    Game.Update scr keys g =
      Game.CollideWithComputerPaddle (Game.CollideWithPlayerPaddle (Game.CollideWithWall scr
        { g with
          playerPaddle := Paddle.MoveOnKeyPress scr keys g.playerPaddle
          computerPaddle :=
            Paddle.MoveToFollowBall scr (g.ball.Y + Int.tdiv g.ball.H 2)
              (truncToInt (paddleSpeed - 3)) g.computerPaddle
          ball := Ball.Move g.ball })) := rfl

theorem collideWithPlayerPaddle_scores (g : Game) :
    (Game.CollideWithPlayerPaddle g).playerScore = g.playerScore
      ∧ (Game.CollideWithPlayerPaddle g).computerScore = g.computerScore
      ∧ (Game.CollideWithPlayerPaddle g).highScore = g.highScore := by
  unfold Game.CollideWithPlayerPaddle
  split_ifs <;> exact ⟨rfl, rfl, rfl⟩

theorem collideWithComputerPaddle_scores (g : Game) :
    (Game.CollideWithComputerPaddle g).playerScore = g.playerScore
      ∧ (Game.CollideWithComputerPaddle g).computerScore = g.computerScore
      ∧ (Game.CollideWithComputerPaddle g).highScore = g.highScore := by
  unfold Game.CollideWithComputerPaddle
  split_ifs <;> exact ⟨rfl, rfl, rfl⟩

theorem collideWithWall_highScore_ge (scr : Screen) (g : Game)
    (h : g.highScore ≥ g.playerScore) :
    (Game.CollideWithWall scr g).highScore ≥ (Game.CollideWithWall scr g).playerScore := by
  simp only [Game.CollideWithWall, Game.Reset]
  split_ifs <;> simp_all

theorem update_highScore_ge (scr : Screen) (keys : Keys) (g : Game)
    (h : g.highScore ≥ g.playerScore) :
    (Game.Update scr keys g).highScore ≥ (Game.Update scr keys g).playerScore := by
  rw [update_eq, (collideWithComputerPaddle_scores _).1, (collideWithComputerPaddle_scores _).2.2,
    (collideWithPlayerPaddle_scores _).1, (collideWithPlayerPaddle_scores _).2.2]
  exact collideWithWall_highScore_ge scr _ h

theorem reachable_run (scr : Screen) (ks : List Keys) (g : Game) (h : Reachable scr g) :
    Reachable scr (Game.run scr ks g) := by
  induction ks generalizing g with
  | nil => exact h
  | cons k ks ih => exact ih _ (Reachable.tick k g h)

theorem run_append (scr : Screen) (ks ks' : List Keys) (g : Game) :
    Game.run scr (ks ++ ks') g = Game.run scr ks' (Game.run scr ks g) := by
  simp [Game.run, List.foldl_append]

/-! ## Scores -/

/-- C6: `highScore ≥ playerScore` is an invariant of the match: it holds in the
state built by `main` (both are 0), every `Update` tick preserves it whatever
the keys, and so it holds in every reachable state. -/
theorem highScore_ge_playerScore_invariant :
    (∀ scr : Screen, (mainGame scr).playerScore = 0 ∧ (mainGame scr).highScore = 0
        ∧ (mainGame scr).highScore ≥ (mainGame scr).playerScore)
      ∧ (∀ (scr : Screen) (keys : Keys) (g : Game), g.highScore ≥ g.playerScore →
          (Game.Update scr keys g).highScore ≥ (Game.Update scr keys g).playerScore)
      ∧ (∀ (scr : Screen) (g : Game), Reachable scr g → g.highScore ≥ g.playerScore) := by
  refine ⟨fun scr => ⟨rfl, rfl, le_refl _⟩, update_highScore_ge, ?_⟩
  intro scr g hg
  induction hg with
  | init => exact le_refl _
  | tick keys g _ ih => exact update_highScore_ge scr keys g ih

theorem highScore_ge_playerScore_invariant_witness :
    aboutToScoreState.highScore ≥ aboutToScoreState.playerScore
      ∧ (Game.Update hdScreen noKey aboutToScoreState).playerScore = 5
      ∧ (Game.Update hdScreen noKey aboutToScoreState).highScore
          ≥ (Game.Update hdScreen noKey aboutToScoreState).playerScore :=
  ⟨by decide, by decide!,
    highScore_ge_playerScore_invariant.2.1 hdScreen noKey aboutToScoreState (by decide)⟩

/-! ## The computer paddle -/

theorem collideWithComputerPaddle_hit (g : Game) (hit : g.hitsComputerPaddle) :
    Game.CollideWithComputerPaddle g =
      { g with
        ball := { g.ball with dxdt := g.ballSpeed + 1, dydt := g.ballSpeed + 1 }
        ballSpeed := g.ballSpeed + 1 } := by
  unfold Game.hitsComputerPaddle at hit
  simp only [Game.CollideWithComputerPaddle, hit, and_self, if_true]

theorem collideWithComputerPaddle_miss (g : Game) (miss : ¬ g.hitsComputerPaddle) :
    Game.CollideWithComputerPaddle g = g := by
  unfold Game.hitsComputerPaddle at miss
  simp only [Game.CollideWithComputerPaddle, miss, if_false]

/-- Where the code departs from C7: `rightMovingHitState` passes the
computer-paddle test with speed scalar 3 and horizontal velocity `+3`; after
`CollideWithComputerPaddle` the scalar is 4 and the horizontal velocity is
`+4`, the same sign as before, not `-4`.  The negation on the first line of the
branch is overwritten by the assignment of the new scalar. -/
theorem collideWithComputerPaddle_keeps_positive_sign :
    rightMovingHitState.hitsComputerPaddle
      ∧ rightMovingHitState.ballSpeed = 3
      ∧ rightMovingHitState.ball.dxdt = 3
      ∧ (Game.CollideWithComputerPaddle rightMovingHitState).ballSpeed = 4
      ∧ (Game.CollideWithComputerPaddle rightMovingHitState).ball.dxdt = 4
      ∧ (Game.CollideWithComputerPaddle rightMovingHitState).ball.dxdt ≠ -4 := by
  have hit : rightMovingHitState.hitsComputerPaddle := by decide
  refine ⟨hit, rfl, rfl, ?_, ?_, ?_⟩ <;>
    rw [collideWithComputerPaddle_hit _ hit] <;> norm_num [rightMovingHitState]

/-- With exact rationals: when the ball passes the computer-paddle test and the speed scalar `s`
is at least 3, `CollideWithComputerPaddle` leaves the scalar at `s + 1` and the
vertical velocity at `s + 1`, a positive value, whatever the vertical velocity
was before. -/
theorem collideWithComputerPaddle_vertical (g : Game)
    (hs : 3 ≤ g.ballSpeed) (hit : g.hitsComputerPaddle) :
    (Game.CollideWithComputerPaddle g).ballSpeed = g.ballSpeed + 1
      ∧ (Game.CollideWithComputerPaddle g).ball.dydt = g.ballSpeed + 1
      ∧ 0 < (Game.CollideWithComputerPaddle g).ball.dydt := by
  rw [collideWithComputerPaddle_hit g hit]
  refine ⟨rfl, rfl, ?_⟩
  show 0 < g.ballSpeed + 1
  linarith

/-! ## Velocity and the speed scalar along a match -/

theorem mainGame_velocityInv (scr : Screen) : VelocityInv (mainGame scr) := by
  simp [VelocityInv, mainGame, ballSpeed]

theorem collideWithWall_velocityInv (scr : Screen) (g : Game) (h : VelocityInv g) :
    VelocityInv (Game.CollideWithWall scr g) := by
  obtain ⟨hx, hy, hs⟩ := h
  simp only [VelocityInv, Game.CollideWithWall, Game.Reset, ballSpeed] at hx hy hs ⊢
  split_ifs <;> simp_all

theorem collideWithPlayerPaddle_velocityInv (g : Game) (h : VelocityInv g) :
    VelocityInv (Game.CollideWithPlayerPaddle g) := by
  obtain ⟨hx, hy, hs⟩ := h
  simp only [VelocityInv, Game.CollideWithPlayerPaddle] at hx hy hs ⊢
  split_ifs
  · exact ⟨by rw [abs_neg]; exact hx, hy, hs⟩
  · exact ⟨hx, hy, hs⟩

theorem collideWithComputerPaddle_velocityInv (g : Game) (h : VelocityInv g) :
    VelocityInv (Game.CollideWithComputerPaddle g) := by
  obtain ⟨hx, hy, hs⟩ := h
  by_cases hit : g.hitsComputerPaddle
  · rw [collideWithComputerPaddle_hit g hit]
    simp only [ballSpeed] at hs
    refine ⟨?_, Or.inr (Or.inr rfl), ?_⟩
    · show |g.ballSpeed + 1| = g.ballSpeed + 1
      exact abs_of_nonneg (by linarith)
    · show ballSpeed ≤ g.ballSpeed + 1
      simp only [ballSpeed]
      linarith
  · rw [collideWithComputerPaddle_miss g hit]
    exact ⟨hx, hy, hs⟩

theorem update_velocityInv (scr : Screen) (keys : Keys) (g : Game) (h : VelocityInv g) :
    VelocityInv (Game.Update scr keys g) := by
  rw [update_eq]
  apply collideWithComputerPaddle_velocityInv
  apply collideWithPlayerPaddle_velocityInv
  apply collideWithWall_velocityInv
  exact h

theorem reachable_velocityInv (scr : Screen) (g : Game) (h : Reachable scr g) :
    VelocityInv g := by
  induction h with
  | init => exact mainGame_velocityInv scr
  | tick keys g _ ih => exact update_velocityInv scr keys g ih

/-! ### A match on `hdScreen` in which the velocity magnitudes differ -/

theorem rally_first_150 :
    Game.run hdScreen (List.replicate 20 downKey ++ List.replicate 130 noKey) (mainGame hdScreen)
      = rallyState150 := by
  set_option maxRecDepth 10000000 in decide!

theorem rally_next_150 :
    Game.run hdScreen (List.replicate 150 noKey) rallyState150 = rallyState300 := by
  set_option maxRecDepth 10000000 in decide!

theorem rally_last_146 :
    Game.run hdScreen (List.replicate 146 noKey) rallyState300 = rallyState446 := by
  set_option maxRecDepth 10000000 in decide!

theorem rallyState446_reachable : Reachable hdScreen rallyState446 := by
  rw [← rally_last_146, ← rally_next_150, ← rally_first_150]
  exact reachable_run _ _ _ (reachable_run _ _ _ (reachable_run _ _ _ Reachable.init))

/-- C9 as stated fails: on the 960x540 screen the state at tick 446 of the match
in which the down key is held for the first 20 ticks is reachable, its speed
scalar is 4 (one computer-paddle hit) and its vertical velocity is -3 (a bounce
off the bottom wall after that hit), so the vertical magnitude 3 is not the
scalar. -/
theorem velocity_magnitude_counterexample :
    ¬ (∀ (scr : Screen) (g : Game), 0 < scr.screenWidth → 0 < scr.screenHeight →
        Reachable scr g → |g.ball.dxdt| = g.ballSpeed ∧ |g.ball.dydt| = g.ballSpeed) := by
  intro h
  have h446 := (h hdScreen rallyState446 (by decide) (by decide) rallyState446_reachable).2
  norm_num [rallyState446] at h446

/-- C9, amended: in every state reachable from the state built by `main` by
`Update` ticks (any screen size, any keys) the absolute value of the horizontal
velocity equals the speed scalar, and the absolute value of the vertical
velocity equals the speed scalar or the base speed 3. -/
theorem reachable_velocity_magnitude (scr : Screen) (g : Game) (h : Reachable scr g) :
    |g.ball.dxdt| = g.ballSpeed ∧ (|g.ball.dydt| = g.ballSpeed ∨ |g.ball.dydt| = 3) := by
  obtain ⟨hx, hy, hs⟩ := reachable_velocityInv scr g h
  simp only [ballSpeed] at hy hs
  refine ⟨hx, ?_⟩
  rcases hy with hy | hy | hy
  · right; rw [hy]; norm_num
  · right; rw [hy]; norm_num
  · left; rw [hy]; exact abs_of_nonneg (by linarith)

theorem reachable_velocity_magnitude_witness :
    |(Game.Update hdScreen downKey (mainGame hdScreen)).ball.dxdt|
        = (Game.Update hdScreen downKey (mainGame hdScreen)).ballSpeed
      ∧ (|(Game.Update hdScreen downKey (mainGame hdScreen)).ball.dydt|
          = (Game.Update hdScreen downKey (mainGame hdScreen)).ballSpeed
        ∨ |(Game.Update hdScreen downKey (mainGame hdScreen)).ball.dydt| = 3) :=
  reachable_velocity_magnitude hdScreen _ (Reachable.tick downKey _ Reachable.init)

/-- Where the code departs from C10: `bottomEdgeState` is the match on the
960x540 screen after 85 ticks without keys; no side scores there
(`0 < 735 < 960`), the ball's top is below the top wall (`525 > 0`) and its
bottom edge `525 + 15` has reached the screen height 540, yet `CollideWithWall`
changes nothing and the vertical velocity stays `+3`: the code compares the
ball's top `Y`, not its bottom edge, with the screen height. -/
theorem collideWithWall_bottom_edge_no_bounce :
    Game.run hdScreen (List.replicate 85 noKey) (mainGame hdScreen) = bottomEdgeState
      ∧ 0 < bottomEdgeState.ball.X ∧ bottomEdgeState.ball.X < hdScreen.screenWidth
      ∧ bottomEdgeState.ball.Y > 0
      ∧ bottomEdgeState.ball.Y + bottomEdgeState.ball.H ≥ hdScreen.screenHeight
      ∧ Game.CollideWithWall hdScreen bottomEdgeState = bottomEdgeState
      ∧ (Game.CollideWithWall hdScreen bottomEdgeState).ball.dydt = 3
      ∧ (Game.CollideWithWall hdScreen bottomEdgeState).ball.dydt ≠ -3 := by
  set_option maxRecDepth 10000000 in decide!

/-! ## Top wall, player paddle, and the tick as a whole -/

theorem collideWithPlayerPaddle_hit (g : Game) (hit : g.hitsPlayerPaddle) :
    Game.CollideWithPlayerPaddle g = { g with ball := { g.ball with dxdt := -g.ball.dxdt } } := by
  unfold Game.hitsPlayerPaddle at hit
  simp only [Game.CollideWithPlayerPaddle, hit, and_self, if_true]

theorem collideWithPlayerPaddle_miss (g : Game) (miss : ¬ g.hitsPlayerPaddle) :
    Game.CollideWithPlayerPaddle g = g := by
  unfold Game.hitsPlayerPaddle at miss
  simp only [Game.CollideWithPlayerPaddle, miss, if_false]

theorem collideWithPlayerPaddle_frame (g : Game) :
    (Game.CollideWithPlayerPaddle g).playerPaddle = g.playerPaddle
      ∧ (Game.CollideWithPlayerPaddle g).computerPaddle = g.computerPaddle
      ∧ (Game.CollideWithPlayerPaddle g).ball.toObject = g.ball.toObject
      ∧ (Game.CollideWithPlayerPaddle g).ball.dydt = g.ball.dydt
      ∧ (Game.CollideWithPlayerPaddle g).ballSpeed = g.ballSpeed := by
  unfold Game.CollideWithPlayerPaddle
  split_ifs <;> exact ⟨rfl, rfl, rfl, rfl, rfl⟩

theorem collideWithComputerPaddle_frame (g : Game) :
    (Game.CollideWithComputerPaddle g).playerPaddle = g.playerPaddle
      ∧ (Game.CollideWithComputerPaddle g).computerPaddle = g.computerPaddle
      ∧ (Game.CollideWithComputerPaddle g).ball.toObject = g.ball.toObject
      ∧ ((Game.CollideWithComputerPaddle g).ballSpeed = g.ballSpeed
          ∨ (Game.CollideWithComputerPaddle g).ballSpeed = g.ballSpeed + 1) := by
  unfold Game.CollideWithComputerPaddle
  split_ifs
  · exact ⟨rfl, rfl, rfl, Or.inr rfl⟩
  · exact ⟨rfl, rfl, rfl, Or.inl rfl⟩

theorem collideWithWall_frame (scr : Screen) (g : Game) :
    (Game.CollideWithWall scr g).playerPaddle = g.playerPaddle
      ∧ (Game.CollideWithWall scr g).computerPaddle = g.computerPaddle
      ∧ (Game.CollideWithWall scr g).ball.W = g.ball.W
      ∧ (Game.CollideWithWall scr g).ball.H = g.ball.H := by
  simp only [Game.CollideWithWall, Game.Reset]
  split_ifs <;> exact ⟨rfl, rfl, rfl, rfl⟩

theorem collideWithWall_speed_of_scores (scr : Screen) (g : Game)
    (hp : (Game.CollideWithWall scr g).playerScore = g.playerScore)
    (hc : (Game.CollideWithWall scr g).computerScore = g.computerScore) :
    (Game.CollideWithWall scr g).ballSpeed = g.ballSpeed := by
  simp only [Game.CollideWithWall, Game.Reset] at hp hc ⊢
  split_ifs at hp hc ⊢ <;> simp_all

theorem collideWithWall_highScore_step (scr : Screen) (g : Game) :
    (Game.CollideWithWall scr g).highScore ≥ g.highScore
      ∧ ((Game.CollideWithWall scr g).highScore ≠ g.highScore →
          (Game.CollideWithWall scr g).playerScore = g.playerScore + 1
            ∧ (Game.CollideWithWall scr g).playerScore > g.highScore
            ∧ (Game.CollideWithWall scr g).highScore = (Game.CollideWithWall scr g).playerScore) := by
  simp only [Game.CollideWithWall, Game.Reset]
  split_ifs <;> simp_all <;> omega

theorem moveOnKeyPress_frame (scr : Screen) (keys : Keys) (p : Paddle) :
    (Paddle.MoveOnKeyPress scr keys p).X = p.X ∧ (Paddle.MoveOnKeyPress scr keys p).W = p.W
      ∧ (Paddle.MoveOnKeyPress scr keys p).H = p.H := by
  simp only [Paddle.MoveOnKeyPress]
  split_ifs <;> exact ⟨rfl, rfl, rfl⟩

theorem moveToFollowBall_frame (scr : Screen) (ballY speed : Int) (p : Paddle) :
    (Paddle.MoveToFollowBall scr ballY speed p).X = p.X
      ∧ (Paddle.MoveToFollowBall scr ballY speed p).W = p.W
      ∧ (Paddle.MoveToFollowBall scr ballY speed p).H = p.H := by
  simp only [Paddle.MoveToFollowBall]
  split_ifs <;> exact ⟨rfl, rfl, rfl⟩

theorem update_eq_moveAll (scr : Screen) (keys : Keys) (g : Game) :
    Game.Update scr keys g =
      Game.CollideWithComputerPaddle (Game.CollideWithPlayerPaddle
        (Game.CollideWithWall scr (Game.moveAll scr keys g))) := rfl

theorem update_scores (scr : Screen) (keys : Keys) (g : Game) :
    (Game.Update scr keys g).playerScore
        = (Game.CollideWithWall scr (Game.moveAll scr keys g)).playerScore
      ∧ (Game.Update scr keys g).computerScore
        = (Game.CollideWithWall scr (Game.moveAll scr keys g)).computerScore
      ∧ (Game.Update scr keys g).highScore
        = (Game.CollideWithWall scr (Game.moveAll scr keys g)).highScore
      ∧ ((Game.Update scr keys g).ballSpeed
          = (Game.CollideWithWall scr (Game.moveAll scr keys g)).ballSpeed
        ∨ (Game.Update scr keys g).ballSpeed
          = (Game.CollideWithWall scr (Game.moveAll scr keys g)).ballSpeed + 1) := by
  rw [update_eq_moveAll]
  refine ⟨?_, ?_, ?_, ?_⟩
  · rw [(collideWithComputerPaddle_scores _).1, (collideWithPlayerPaddle_scores _).1]
  · rw [(collideWithComputerPaddle_scores _).2.1, (collideWithPlayerPaddle_scores _).2.1]
  · rw [(collideWithComputerPaddle_scores _).2.2, (collideWithPlayerPaddle_scores _).2.2]
  · have h := (collideWithComputerPaddle_frame (Game.CollideWithPlayerPaddle
      (Game.CollideWithWall scr (Game.moveAll scr keys g)))).2.2.2
    rw [(collideWithPlayerPaddle_frame _).2.2.2.2] at h
    exact h

/-- With exact rationals: the speed scalar is at least the base speed 3 in every state reachable
from the state built by `main`, and in every `Update` tick (from any state) in
which neither score counter changes the scalar is unchanged or exactly 1
greater than before the tick. -/
theorem ballSpeed_never_below_base :
    (∀ (scr : Screen) (g : Game), Reachable scr g → 3 ≤ g.ballSpeed)
      ∧ (∀ (scr : Screen) (keys : Keys) (g : Game),
          (Game.Update scr keys g).playerScore = g.playerScore →
          (Game.Update scr keys g).computerScore = g.computerScore →
          (Game.Update scr keys g).ballSpeed = g.ballSpeed
            ∨ (Game.Update scr keys g).ballSpeed = g.ballSpeed + 1) := by
  constructor
  · intro scr g hg
    exact (reachable_velocityInv scr g hg).2.2
  · intro scr keys g hp hc
    obtain ⟨hup, huc, _, hus⟩ := update_scores scr keys g
    have hw : (Game.CollideWithWall scr (Game.moveAll scr keys g)).ballSpeed = g.ballSpeed :=
      collideWithWall_speed_of_scores scr (Game.moveAll scr keys g)
        (by rw [← hup, hp]; rfl) (by rw [← huc, hc]; rfl)
    rw [hw] at hus
    exact hus

/-- C14: after `Update` the high score is at least the high score before the
tick, and if it differs then in that tick the player score rose by 1 to a value
strictly greater than the prior high score, and the new high score equals the
new player score. -/
theorem highScore_monotone (scr : Screen) (keys : Keys) (g : Game) :
    (Game.Update scr keys g).highScore ≥ g.highScore
      ∧ ((Game.Update scr keys g).highScore ≠ g.highScore →
          (Game.Update scr keys g).playerScore = g.playerScore + 1
            ∧ (Game.Update scr keys g).playerScore > g.highScore
            ∧ (Game.Update scr keys g).highScore = (Game.Update scr keys g).playerScore) := by
  obtain ⟨hup, _, huh, _⟩ := update_scores scr keys g
  rw [huh, hup]
  exact collideWithWall_highScore_step scr (Game.moveAll scr keys g)

theorem highScore_monotone_witness :
    (Game.Update hdScreen noKey aboutToScoreState).highScore ≠ aboutToScoreState.highScore
      ∧ (Game.Update hdScreen noKey aboutToScoreState).playerScore = 4 + 1
      ∧ (Game.Update hdScreen noKey aboutToScoreState).playerScore > 4
      ∧ (Game.Update hdScreen noKey aboutToScoreState).highScore
          = (Game.Update hdScreen noKey aboutToScoreState).playerScore :=
  ⟨by decide!, (highScore_monotone hdScreen noKey aboutToScoreState).2 (by decide!)⟩

/-- Where the code departs from C15: `rightEdgeState` is the match on the
960x540 screen after 155 ticks without keys; the ball's right edge `945 + 15`
has reached the screen width 960, yet `CollideWithWall` changes nothing: the
computer score stays 0 and the ball is not recentred.  The code compares the
ball's left edge `X` with the screen width (the same omission of the ball's
size as in the bottom-wall test); the point is given only 5 ticks later, when
`X = 960`. -/
theorem collideWithWall_right_edge_no_score :
    Game.run hdScreen (List.replicate 155 noKey) (mainGame hdScreen) = rightEdgeState
      ∧ 0 < hdScreen.screenWidth ∧ 0 < hdScreen.screenHeight
      ∧ rightEdgeState.ball.X + rightEdgeState.ball.W ≥ hdScreen.screenWidth
      ∧ Game.CollideWithWall hdScreen rightEdgeState = rightEdgeState
      ∧ (Game.CollideWithWall hdScreen rightEdgeState).computerScore
          ≠ rightEdgeState.computerScore + 1
      ∧ (Game.run hdScreen (List.replicate 5 noKey) rightEdgeState).computerScore = 1 := by
  set_option maxRecDepth 10000000 in decide!

/-! ## The computer paddle's movement against the specification's wording -/

/-- With unbounded integers: when `H ≤ sh`, the `Y` that `MoveToFollowBall` produces is
`clamp (Y + d) 0 (sh - H)` with `d = +v`, `-v` or `0` according to the centre
`Y + H/2` being below, above or at the target; a paddle inside `[0, sh - H]`
whose centre equals the target is returned unchanged. -/
theorem moveToFollowBall_eq_spec (scr : Screen) (p : Paddle) (t v : Int)
    (hH : p.H ≤ scr.screenHeight) :
    (Paddle.MoveToFollowBall scr t v p).Y = followBallSpecY scr.screenHeight t v p
      ∧ (0 ≤ p.Y → p.Y ≤ scr.screenHeight - p.H → p.Y + Int.tdiv p.H 2 = t →
          Paddle.MoveToFollowBall scr t v p = p) := by
  constructor
  · simp only [Paddle.MoveToFollowBall, followBallSpecY, clamp]
    split_ifs <;> simp_all <;> omega
  · intro h0 h1 hc
    have hlt : ¬ (p.Y + Int.tdiv p.H 2 < t) := by omega
    have hgt : ¬ (p.Y + Int.tdiv p.H 2 > t) := by omega
    have hneg : ¬ (p.Y < 0) := by omega
    have hbot : ¬ (p.Y + p.H > scr.screenHeight) := by omega
    simp only [Paddle.MoveToFollowBall, hlt, hgt, hneg, hbot, if_false]

/-! ## Ball motion -/

theorem truncToInt_eq_roundTowardZero (q : ℚ) : truncToInt q = roundTowardZero q := by
  unfold truncToInt roundTowardZero
  have hden : (0 : Int) ≤ (q.den : Int) := Int.natCast_nonneg _
  split_ifs with h
  · rw [Rat.floor_def, Int.tdiv_eq_ediv (Rat.num_nonneg.mpr h) hden]
  · have hnum : q.num < 0 := Rat.num_neg.mpr (not_le.mp h)
    have hpos : (0 : Int) ≤ -q.num := by omega
    have hc : ⌈q⌉ = -⌊-q⌋ := by rw [Int.floor_neg, neg_neg]
    have ht : Int.tdiv q.num q.den = -((-q.num) / (q.den : Int)) := by
      have hn := Int.neg_tdiv (-q.num) q.den
      rw [neg_neg] at hn
      rw [hn, Int.tdiv_eq_ediv hpos hden]
    rw [ht, hc, Rat.floor_def, Rat.neg_num, Rat.neg_den]

theorem move_velocity (b : Ball) :
    (Ball.Move b).dxdt = b.dxdt ∧ (Ball.Move b).dydt = b.dydt
      ∧ (Ball.Move b).W = b.W ∧ (Ball.Move b).H = b.H := ⟨rfl, rfl, rfl, rfl⟩

theorem moveN_spec (n : Nat) (b : Ball) :
    (Ball.moveN n b).X = b.X + n * truncToInt b.dxdt
      ∧ (Ball.moveN n b).Y = b.Y + n * truncToInt b.dydt
      ∧ (Ball.moveN n b).dxdt = b.dxdt ∧ (Ball.moveN n b).dydt = b.dydt
      ∧ (Ball.moveN n b).W = b.W ∧ (Ball.moveN n b).H = b.H := by
  induction n generalizing b with
  | zero => simp [Ball.moveN]
  | succ n ih =>
    obtain ⟨hx, hy, hdx, hdy, hw, hh⟩ := ih (Ball.Move b)
    simp only [Ball.moveN]
    refine ⟨?_, ?_, hdx, hdy, hw, hh⟩
    · rw [hx]
      show b.X + truncToInt b.dxdt + n * truncToInt b.dxdt = b.X + (n + 1 : Nat) * truncToInt b.dxdt
      push_cast
      ring
    · rw [hy]
      show b.Y + truncToInt b.dydt + n * truncToInt b.dydt = b.Y + (n + 1 : Nat) * truncToInt b.dydt
      push_cast
      ring

/-- With unbounded integers: `Move` adds to `X` and `Y` the velocity components rounded toward zero
and leaves the velocity and the size unchanged; `n` consecutive `Move`s
therefore displace the ball by `n * trunc dxdt` and `n * trunc dydt`.  That is
not `trunc (n * dxdt)`: with velocity `(1/2, -3/2)` two `Move`s displace the
ball by `(0, -2)` and not by `(1, -3)`. -/
theorem move_truncates_each_tick :
    (∀ b : Ball,
        (Ball.Move b).X = b.X + roundTowardZero b.dxdt
          ∧ (Ball.Move b).Y = b.Y + roundTowardZero b.dydt
          ∧ (Ball.Move b).dxdt = b.dxdt ∧ (Ball.Move b).dydt = b.dydt
          ∧ (Ball.Move b).W = b.W ∧ (Ball.Move b).H = b.H)
      ∧ (∀ (n : Nat) (b : Ball),
          (Ball.moveN n b).X = b.X + n * roundTowardZero b.dxdt
            ∧ (Ball.moveN n b).Y = b.Y + n * roundTowardZero b.dydt)
      ∧ ((Ball.moveN 2 halfSpeedBall).X = halfSpeedBall.X + 0
          ∧ (Ball.moveN 2 halfSpeedBall).Y = halfSpeedBall.Y + (-2)
          ∧ roundTowardZero (2 * halfSpeedBall.dxdt) = 1
          ∧ roundTowardZero (2 * halfSpeedBall.dydt) = -3) := by
  refine ⟨fun b => ?_, fun n b => ?_, ?_⟩
  · simp only [← truncToInt_eq_roundTowardZero]
    exact ⟨rfl, rfl, rfl, rfl, rfl, rfl⟩
  · simp only [← truncToInt_eq_roundTowardZero]
    exact ⟨(moveN_spec n b).1, (moveN_spec n b).2.1⟩
  · simp only [← truncToInt_eq_roundTowardZero]
    decide!

/-! ## What a tick leaves fixed -/

/-- C18: `Update` leaves the width and height of the player paddle, of the
computer paddle and of the ball unchanged, and leaves the `X` of both paddles
unchanged, for every game state, screen and key input. -/
theorem update_keeps_sizes (scr : Screen) (keys : Keys) (g : Game) :
    (Game.Update scr keys g).playerPaddle.W = g.playerPaddle.W
      ∧ (Game.Update scr keys g).playerPaddle.H = g.playerPaddle.H
      ∧ (Game.Update scr keys g).computerPaddle.W = g.computerPaddle.W
      ∧ (Game.Update scr keys g).computerPaddle.H = g.computerPaddle.H
      ∧ (Game.Update scr keys g).ball.W = g.ball.W
      ∧ (Game.Update scr keys g).ball.H = g.ball.H
      ∧ (Game.Update scr keys g).playerPaddle.X = g.playerPaddle.X
      ∧ (Game.Update scr keys g).computerPaddle.X = g.computerPaddle.X := by
  have hpp : (Game.Update scr keys g).playerPaddle
      = Paddle.MoveOnKeyPress scr keys g.playerPaddle := by
    rw [update_eq_moveAll, (collideWithComputerPaddle_frame _).1,
      (collideWithPlayerPaddle_frame _).1, (collideWithWall_frame _ _).1]
    rfl
  have hcp : (Game.Update scr keys g).computerPaddle
      = Paddle.MoveToFollowBall scr (g.ball.Y + Int.tdiv g.ball.H 2)
          (truncToInt (paddleSpeed - 3)) g.computerPaddle := by
    rw [update_eq_moveAll, (collideWithComputerPaddle_frame _).2.1,
      (collideWithPlayerPaddle_frame _).2.1, (collideWithWall_frame _ _).2.1]
    rfl
  have hb : (Game.Update scr keys g).ball.toObject
      = (Game.CollideWithWall scr (Game.moveAll scr keys g)).ball.toObject := by
    rw [update_eq_moveAll, (collideWithComputerPaddle_frame _).2.2.1,
      (collideWithPlayerPaddle_frame _).2.2.1]
  have hbW : (Game.Update scr keys g).ball.W = g.ball.W := by
    show (Game.Update scr keys g).ball.toObject.W = g.ball.W
    rw [hb]
    exact (collideWithWall_frame scr _).2.2.1
  have hbH : (Game.Update scr keys g).ball.H = g.ball.H := by
    show (Game.Update scr keys g).ball.toObject.H = g.ball.H
    rw [hb]
    exact (collideWithWall_frame scr _).2.2.2
  obtain ⟨h1, h2, h3⟩ := moveOnKeyPress_frame scr keys g.playerPaddle
  obtain ⟨h4, h5, h6⟩ := moveToFollowBall_frame scr (g.ball.Y + Int.tdiv g.ball.H 2)
    (truncToInt (paddleSpeed - 3)) g.computerPaddle
  rw [hpp, hcp]
  exact ⟨h2, h3, h5, h6, hbW, hbH, h1, h4⟩

/-! ## Whole-number velocities -/

theorem den_add_one (s : ℚ) (h : s.den = 1) : (s + 1).den = 1 := by
  have hs : s = ((s.num : Int) : ℚ) := ((Rat.den_eq_one_iff s).mp h).symm
  have h1 : s + 1 = (((s.num + 1 : Int)) : ℚ) := by
    push_cast
    rw [← hs]
  rw [h1]
  exact Rat.intCast_den _

theorem truncToInt_of_den_one (q : ℚ) (h : q.den = 1) : (truncToInt q : ℚ) = q := by
  have hq : q = ((q.num : Int) : ℚ) := ((Rat.den_eq_one_iff q).mp h).symm
  rw [hq, truncToInt_intCast]

theorem collideWithWall_ballSpeed (scr : Screen) (g : Game) :
    (Game.CollideWithWall scr g).ballSpeed = g.ballSpeed
      ∨ (Game.CollideWithWall scr g).ballSpeed = 3 := by
  simp only [Game.CollideWithWall, Game.Reset, ballSpeed]
  split_ifs <;> simp

theorem update_wholeVelocityInv (scr : Screen) (keys : Keys) (g : Game)
    (h : WholeVelocityInv g) : WholeVelocityInv (Game.Update scr keys g) := by
  refine ⟨update_velocityInv scr keys g h.1, ?_⟩
  have hden : g.ballSpeed.den = 1 := h.2
  have hw : (Game.CollideWithWall scr (Game.moveAll scr keys g)).ballSpeed.den = 1 := by
    rcases collideWithWall_ballSpeed scr (Game.moveAll scr keys g) with hs | hs
    · rw [hs]
      exact hden
    · rw [hs]
      rfl
  rcases (update_scores scr keys g).2.2.2 with hs | hs
  · rw [hs]
    exact hw
  · rw [hs]
    exact den_add_one _ hw

theorem reachable_wholeVelocityInv (scr : Screen) (g : Game) (h : Reachable scr g) :
    WholeVelocityInv g := by
  induction h with
  | init => exact ⟨mainGame_velocityInv scr, rfl⟩
  | tick keys g _ ih => exact update_wholeVelocityInv scr keys g ih

/-- C19: the predicate "`|dxdt|` is the speed scalar, `dydt` is `+3`, `-3` or the
speed scalar, and the speed scalar is a whole number at least 3"
(`WholeVelocityInv`) holds in the state built by `main` and is preserved by
`Update` for every key input and screen size; hence in every reachable state
both velocity components are non-zero whole numbers and the truncation in
`Move` returns them exactly. -/
theorem wholeVelocityInv_invariant :
    (∀ scr : Screen, WholeVelocityInv (mainGame scr))
      ∧ (∀ (scr : Screen) (keys : Keys) (g : Game),
          WholeVelocityInv g → WholeVelocityInv (Game.Update scr keys g))
      ∧ (∀ (scr : Screen) (g : Game), Reachable scr g →
          g.ball.dxdt ≠ 0 ∧ g.ball.dydt ≠ 0
            ∧ g.ball.dxdt.den = 1 ∧ g.ball.dydt.den = 1
            ∧ (truncToInt g.ball.dxdt : ℚ) = g.ball.dxdt
            ∧ (truncToInt g.ball.dydt : ℚ) = g.ball.dydt) := by
  refine ⟨fun scr => ⟨mainGame_velocityInv scr, rfl⟩, update_wholeVelocityInv, ?_⟩
  intro scr g hg
  obtain ⟨⟨hx, hy, hs⟩, hden⟩ := reachable_wholeVelocityInv scr g hg
  simp only [ballSpeed] at hy hs
  have hxden : g.ball.dxdt.den = 1 := by
    rcases abs_choice g.ball.dxdt with h | h
    · rw [h] at hx
      rw [hx]
      exact hden
    · rw [h] at hx
      have h2 : g.ball.dxdt = -g.ballSpeed := by rw [← hx, neg_neg]
      rw [h2, Rat.neg_den]
      exact hden
  have hyden : g.ball.dydt.den = 1 := by
    rcases hy with h | h | h
    · rw [h]; rfl
    · rw [h]; rfl
    · rw [h]; exact hden
  have hx0 : g.ball.dxdt ≠ 0 := by
    intro h0
    rw [h0, abs_zero] at hx
    linarith
  have hy0 : g.ball.dydt ≠ 0 := by
    rcases hy with h | h | h
    · rw [h]; norm_num
    · rw [h]; norm_num
    · rw [h]; intro h0; linarith
  exact ⟨hx0, hy0, hxden, hyden, truncToInt_of_den_one _ hxden, truncToInt_of_den_one _ hyden⟩

theorem wholeVelocityInv_invariant_witness :
    WholeVelocityInv rallyState446
      ∧ WholeVelocityInv (Game.Update hdScreen noKey rallyState446)
      ∧ (truncToInt rallyState300.ball.dxdt : ℚ) = rallyState300.ball.dxdt :=
  ⟨by decide!, wholeVelocityInv_invariant.2.1 hdScreen noKey rallyState446 (by decide!),
    (wholeVelocityInv_invariant.2.2 hdScreen rallyState300
      (by
        rw [← rally_next_150, ← rally_first_150]
        exact reachable_run _ _ _ (reachable_run _ _ _ Reachable.init))).2.2.2.2.1⟩

/-! ## One scoring branch per call -/

theorem wrap64_of_inInt64 (x : Int) (h : InInt64 x) : wrap64 x = x := by
  unfold InInt64 at h
  unfold wrap64
  omega

theorem wrap64_inInt64 (x : Int) : InInt64 (wrap64 x) := by
  unfold InInt64 wrap64
  omega

theorem wrap64_succ_ne (x : Int) : wrap64 (x + 1) ≠ x := by
  unfold wrap64
  omega

theorem floorLog2Aux_pow_le (fuel n : Nat) (h : 0 < n) : 2 ^ floorLog2Aux fuel n ≤ n := by
  induction fuel generalizing n with
  | zero => simpa [floorLog2Aux] using h
  | succ fuel ih =>
    unfold floorLog2Aux
    split_ifs with h2
    · have hhalf : 0 < n / 2 := by omega
      have := ih (n / 2) hhalf
      rw [pow_succ]
      omega
    · simpa using h

theorem floorLog2_pow_le (n : Nat) (h : 0 < n) : 2 ^ floorLog2 n ≤ n :=
  floorLog2Aux_pow_le n n h

theorem pow2_neg_natCast (k : Nat) : pow2 (-(k : Int)) = 1 / (2 : ℚ) ^ k := by
  unfold pow2
  split_ifs with h
  · have hk : k = 0 := by omega
    subst hk
    simp
  · simp

theorem roundHalfEven_intCast (m : Int) : roundHalfEven (m : ℚ) = m := by
  unfold roundHalfEven
  simp

theorem float64Round_natCast (n : Nat) (h0 : 0 < n) (h1 : n < 2 ^ 53) :
    float64Round (n : ℚ) = n := by
  have hL : 2 ^ floorLog2 n ≤ n := floorLog2_pow_le n h0
  have hL52 : floorLog2 n ≤ 52 := by
    by_contra hcon
    have h53 : 53 ≤ floorLog2 n := by omega
    have : 2 ^ 53 ≤ 2 ^ floorLog2 n := Nat.pow_le_pow_right (by decide) h53
    omega
  have hne : (n : ℚ) ≠ 0 := by exact_mod_cast (Nat.pos_iff_ne_zero.mp h0)
  have hexp : binaryExponent (n : ℚ) = (floorLog2 n : Int) := by
    unfold binaryExponent
    have hone : floorLog2 1 = 0 := by decide
    have hle : pow2 (floorLog2 n : Int) ≤ |(n : ℚ)| := by
      unfold pow2
      rw [if_pos (Int.natCast_nonneg _), Int.toNat_natCast, abs_of_nonneg (Nat.cast_nonneg n)]
      exact_mod_cast hL
    simp only [Rat.num_natCast, Int.natAbs_ofNat, Rat.den_natCast, hone, Nat.cast_zero, sub_zero,
      hle, if_true]
  obtain ⟨k, hk⟩ : ∃ k : Nat, (floorLog2 n : Int) - 52 = -(k : Int) :=
    ⟨52 - floorLog2 n, by omega⟩
  unfold float64Round
  rw [if_neg hne]
  have hmax : max (binaryExponent (n : ℚ)) (-1022) = (floorLog2 n : Int) := by
    rw [hexp]
    exact max_eq_left (by omega)
  simp only [hmax, hk, pow2_neg_natCast]
  have hq : (n : ℚ) / (1 / (2 : ℚ) ^ k) = ((n * 2 ^ k : Nat) : Int) := by
    push_cast
    field_simp
  rw [hq, roundHalfEven_intCast]
  push_cast
  field_simp

theorem float64Round_whole (s : ℚ) (hden : s.den = 1) (h0 : 0 < s)
    (h1 : s ≤ 9007199254740992) : float64Round s = s := by
  have hs : s = ((s.num : Int) : ℚ) := ((Rat.den_eq_one_iff s).mp hden).symm
  have hnum0 : 0 < s.num := Rat.num_pos.mpr h0
  have hnum1 : s.num ≤ 9007199254740992 := by
    have : ((s.num : Int) : ℚ) ≤ ((9007199254740992 : Int) : ℚ) := by
      rw [← hs]
      exact_mod_cast h1
    exact_mod_cast this
  obtain ⟨n, hn⟩ : ∃ n : Nat, s.num = n := ⟨s.num.toNat, by omega⟩
  have hsn : s = (n : ℚ) := by
    rw [hs, hn]
    simp
  rw [hsn]
  rcases Nat.lt_or_ge n (2 ^ 53) with hlt | hge
  · exact float64Round_natCast n (by omega) hlt
  · have hn53 : n = 9007199254740992 := by
      have : (2 : Nat) ^ 53 = 9007199254740992 := by norm_num
      omega
    subst hn53
    decide!

theorem float64Round_tie : float64Round (9007199254740992 + 1) = 9007199254740992 := by
  decide!

theorem den_one_le_succ (s : ℚ) (hden : s.den = 1) (h : s < 9007199254740992) :
    s + 1 ≤ 9007199254740992 := by
  have hs : s = ((s.num : Int) : ℚ) := ((Rat.den_eq_one_iff s).mp hden).symm
  have hlt : s.num < 9007199254740992 := by
    have : ((s.num : Int) : ℚ) < ((9007199254740992 : Int) : ℚ) := by
      rw [← hs]
      exact_mod_cast h
    exact_mod_cast this
  have hle : ((s.num + 1 : Int) : ℚ) ≤ ((9007199254740992 : Int) : ℚ) := by
    exact_mod_cast (show s.num + 1 ≤ 9007199254740992 by omega)
  rw [hs]
  push_cast at hle ⊢
  exact hle

/-! ## The computer paddle's movement on the machine -/

theorem moveToFollowBall64_eq_exact (scr : Screen) (p : Paddle) (ballY speed : Int)
    (hsh : Below2Pow61 scr.screenHeight) (hY : Below2Pow61 p.Y) (hHb : Below2Pow61 p.H)
    (hv : Below2Pow61 speed) :
    Paddle.MoveToFollowBall64 scr ballY speed p = Paddle.MoveToFollowBall scr ballY speed p := by
  obtain ⟨⟨X, Y, W, H⟩⟩ := p
  unfold Below2Pow61 at hsh hY hHb hv
  simp only at hY hHb
  have hb := tdiv_two_bounds H
  have hw : ∀ x : Int, -9223372036854775808 ≤ x → x ≤ 9223372036854775807 → wrap64 x = x :=
    fun x h1 h2 => wrap64_of_inInt64 x ⟨h1, h2⟩
  have hc : wrap64 (Y + Int.tdiv H 2) = Y + Int.tdiv H 2 := hw _ (by omega) (by omega)
  simp only [Paddle.MoveToFollowBall64, Paddle.MoveToFollowBall, hc]
  by_cases h1 : Y + Int.tdiv H 2 < ballY
  · have h2 : ¬ (Y + Int.tdiv H 2 > ballY) := by omega
    simp only [h1, h2, if_true, if_false, hw (Y + speed) (by omega) (by omega)]
    by_cases h3 : Y + speed < 0
    · simp only [h3, if_true, hw (0 + H) (by omega) (by omega),
        hw (scr.screenHeight - H) (by omega) (by omega)]
    · simp only [h3, if_false, hw (Y + speed + H) (by omega) (by omega),
        hw (scr.screenHeight - H) (by omega) (by omega)]
  · by_cases h2 : Y + Int.tdiv H 2 > ballY
    · simp only [h1, h2, if_true, if_false, hw (Y - speed) (by omega) (by omega)]
      by_cases h3 : Y - speed < 0
      · simp only [h3, if_true, hw (0 + H) (by omega) (by omega),
          hw (scr.screenHeight - H) (by omega) (by omega)]
      · simp only [h3, if_false, hw (Y - speed + H) (by omega) (by omega),
          hw (scr.screenHeight - H) (by omega) (by omega)]
    · simp only [h1, h2, if_false]
      by_cases h3 : Y < 0
      · simp only [h3, if_true, hw (0 + H) (by omega) (by omega),
          hw (scr.screenHeight - H) (by omega) (by omega)]
      · simp only [h3, if_false, hw (Y + H) (by omega) (by omega),
          hw (scr.screenHeight - H) (by omega) (by omega)]

/-- C1 as stated fails on the machine: on the 540-high screen the paddle at
`Y = 0` with `H = 100`, target 300 and speed `2^63 - 1` moves to
`Y = 2^63 - 1`; the sum `Y + H` wraps to a negative number, the lower clamp
does not fire and `Y` stays above `screenHeight - H = 440`. -/
theorem moveToFollowBall64_range_counterexample :
    ¬ (∀ (scr : Screen) (p : Paddle) (ballY speed : Int),
        InInt64 scr.screenHeight → InInt64 p.Y → InInt64 p.H → InInt64 ballY → InInt64 speed →
        p.H ≤ scr.screenHeight →
        0 ≤ (Paddle.MoveToFollowBall64 scr ballY speed p).Y
          ∧ (Paddle.MoveToFollowBall64 scr ballY speed p).Y ≤ scr.screenHeight - p.H) := by
  intro h
  have hbad := (h hdScreen restingPaddle 300 maxInt64 (by decide) (by decide) (by decide)
    (by decide) (by decide) (by decide)).2
  revert hbad
  decide!

/-- C1, amended: when the screen height, the paddle's `Y` and `H`, and the
speed all have magnitude below `2^61` (so that no `int` operation of the move
overflows) and `H ≤ screenHeight`, then for every target `MoveToFollowBall`
leaves the paddle's `Y` in `[0, screenHeight - H]`; `H` is not changed. -/
theorem moveToFollowBall64_within_screen (scr : Screen) (p : Paddle) (ballY speed : Int)
    (hsh : Below2Pow61 scr.screenHeight) (hY : Below2Pow61 p.Y) (hHb : Below2Pow61 p.H)
    (hv : Below2Pow61 speed) (hH : p.H ≤ scr.screenHeight) :
    0 ≤ (Paddle.MoveToFollowBall64 scr ballY speed p).Y
      ∧ (Paddle.MoveToFollowBall64 scr ballY speed p).Y
          ≤ scr.screenHeight - (Paddle.MoveToFollowBall64 scr ballY speed p).H
      ∧ (Paddle.MoveToFollowBall64 scr ballY speed p).H = p.H := by
  rw [moveToFollowBall64_eq_exact scr p ballY speed hsh hY hHb hv]
  exact moveToFollowBall_within_screen scr p ballY speed hH

theorem moveToFollowBall64_within_screen_witness :
    0 ≤ (Paddle.MoveToFollowBall64 hdScreen 700 3 ⟨⟨25, -50, 15, 100⟩⟩).Y
      ∧ (Paddle.MoveToFollowBall64 hdScreen 700 3 ⟨⟨25, -50, 15, 100⟩⟩).Y
          ≤ hdScreen.screenHeight - (Paddle.MoveToFollowBall64 hdScreen 700 3 ⟨⟨25, -50, 15, 100⟩⟩).H
      ∧ (Paddle.MoveToFollowBall64 hdScreen 700 3 ⟨⟨25, -50, 15, 100⟩⟩).H = 100 :=
  moveToFollowBall64_within_screen hdScreen ⟨⟨25, -50, 15, 100⟩⟩ 700 3
    (by decide) (by decide) (by decide) (by decide) (by decide)

/-- C16 as stated fails on the machine: for the paddle at `Y = 0` with
`H = 100` on the 540-high screen, target 300 and speed `2^63 - 1`, the
specification's formula gives `clamp (2^63 - 1) 0 440 = 440`, while the code
leaves `Y = 2^63 - 1` because `Y + H` wraps before the comparison. -/
theorem moveToFollowBall64_spec_counterexample :
    ¬ (∀ (scr : Screen) (p : Paddle) (t v : Int),
        InInt64 scr.screenHeight → InInt64 p.Y → InInt64 p.H → InInt64 t → InInt64 v →
        p.H ≤ scr.screenHeight →
        (Paddle.MoveToFollowBall64 scr t v p).Y = followBallSpecY scr.screenHeight t v p) := by
  intro h
  have hbad := h hdScreen restingPaddle 300 maxInt64 (by decide) (by decide) (by decide)
    (by decide) (by decide) (by decide)
  revert hbad
  decide!

/-- C16, amended: when the screen height, the paddle's `Y` and `H`, and the
speed `v` all have magnitude below `2^61` (no `int` operation of the move
overflows) and `H ≤ sh`, the `Y` that `MoveToFollowBall` produces is
`clamp (Y + d) 0 (sh - H)` with `d = +v`, `-v` or `0` according to the centre
`Y + H/2` being below, above or at the target; a paddle inside `[0, sh - H]`
whose centre equals the target is returned unchanged. -/
theorem moveToFollowBall64_eq_spec (scr : Screen) (p : Paddle) (t v : Int)
    (hsh : Below2Pow61 scr.screenHeight) (hY : Below2Pow61 p.Y) (hHb : Below2Pow61 p.H)
    (hv : Below2Pow61 v) (hH : p.H ≤ scr.screenHeight) :
    (Paddle.MoveToFollowBall64 scr t v p).Y = followBallSpecY scr.screenHeight t v p
      ∧ (0 ≤ p.Y → p.Y ≤ scr.screenHeight - p.H → p.Y + Int.tdiv p.H 2 = t →
          Paddle.MoveToFollowBall64 scr t v p = p) := by
  rw [moveToFollowBall64_eq_exact scr p t v hsh hY hHb hv]
  exact moveToFollowBall_eq_spec scr p t v hH

theorem moveToFollowBall64_eq_spec_witness :
    (Paddle.MoveToFollowBall64 hdScreen 300 3 restingPaddle).Y = 3
      ∧ Paddle.MoveToFollowBall64 hdScreen 50 3 restingPaddle = restingPaddle :=
  ⟨(moveToFollowBall64_eq_spec hdScreen restingPaddle 300 3 (by decide) (by decide) (by decide)
      (by decide) (by decide)).1,
    (moveToFollowBall64_eq_spec hdScreen restingPaddle 50 3 (by decide) (by decide) (by decide)
      (by decide) (by decide)).2 (by decide) (by decide) (by decide)⟩

/-! ## Ball motion on the machine -/

theorem floatToInt64_of_inInt64 (q : ℚ) (h : InInt64 (roundTowardZero q)) :
    floatToInt64 q = roundTowardZero q := by
  unfold floatToInt64
  rw [truncToInt_eq_roundTowardZero, if_pos h]

theorem inInt64_between (x t : Int) (n : Nat) (hx : InInt64 x)
    (hn : InInt64 (x + ((n + 1 : Nat) : Int) * t)) : InInt64 (x + t) := by
  unfold InInt64 at hx hn ⊢
  have hmul : ((n + 1 : Nat) : Int) * t = (n : Int) * t + t := by
    push_cast
    ring
  rw [hmul] at hn
  rcases le_total 0 t with ht | ht
  · have : 0 ≤ (n : Int) * t := mul_nonneg (Int.natCast_nonneg n) ht
    omega
  · have : (n : Int) * t ≤ 0 := mul_nonpos_of_nonneg_of_nonpos (Int.natCast_nonneg n) ht
    omega

theorem move64_spec (b : Ball)
    (hdx : InInt64 (roundTowardZero b.dxdt)) (hdy : InInt64 (roundTowardZero b.dydt))
    (hX : InInt64 (b.X + roundTowardZero b.dxdt)) (hY : InInt64 (b.Y + roundTowardZero b.dydt)) :
    (Ball.Move64 b).X = b.X + roundTowardZero b.dxdt
      ∧ (Ball.Move64 b).Y = b.Y + roundTowardZero b.dydt
      ∧ (Ball.Move64 b).dxdt = b.dxdt ∧ (Ball.Move64 b).dydt = b.dydt
      ∧ (Ball.Move64 b).W = b.W ∧ (Ball.Move64 b).H = b.H := by
  refine ⟨?_, ?_, rfl, rfl, rfl, rfl⟩
  · show wrap64 (b.X + floatToInt64 b.dxdt) = _
    rw [floatToInt64_of_inInt64 _ hdx, wrap64_of_inInt64 _ hX]
  · show wrap64 (b.Y + floatToInt64 b.dydt) = _
    rw [floatToInt64_of_inInt64 _ hdy, wrap64_of_inInt64 _ hY]

theorem moveN64_spec (n : Nat) (b : Ball)
    (hdx : InInt64 (roundTowardZero b.dxdt)) (hdy : InInt64 (roundTowardZero b.dydt))
    (hX0 : InInt64 b.X) (hY0 : InInt64 b.Y)
    (hX : InInt64 (b.X + (n : Int) * roundTowardZero b.dxdt))
    (hY : InInt64 (b.Y + (n : Int) * roundTowardZero b.dydt)) :
    (Ball.moveN64 n b).X = b.X + (n : Int) * roundTowardZero b.dxdt
      ∧ (Ball.moveN64 n b).Y = b.Y + (n : Int) * roundTowardZero b.dydt := by
  induction n generalizing b with
  | zero => simp [Ball.moveN64]
  | succ n ih =>
    have hX1 := inInt64_between b.X (roundTowardZero b.dxdt) n hX0 hX
    have hY1 := inInt64_between b.Y (roundTowardZero b.dydt) n hY0 hY
    obtain ⟨mx, my, mdx, mdy, _, _⟩ := move64_spec b hdx hdy hX1 hY1
    have hXn : InInt64 ((Ball.Move64 b).X + (n : Int) * roundTowardZero (Ball.Move64 b).dxdt) := by
      rw [mx, mdx]
      have : b.X + roundTowardZero b.dxdt + (n : Int) * roundTowardZero b.dxdt
          = b.X + ((n + 1 : Nat) : Int) * roundTowardZero b.dxdt := by
        push_cast
        ring
      rw [this]
      exact hX
    have hYn : InInt64 ((Ball.Move64 b).Y + (n : Int) * roundTowardZero (Ball.Move64 b).dydt) := by
      rw [my, mdy]
      have : b.Y + roundTowardZero b.dydt + (n : Int) * roundTowardZero b.dydt
          = b.Y + ((n + 1 : Nat) : Int) * roundTowardZero b.dydt := by
        push_cast
        ring
      rw [this]
      exact hY
    obtain ⟨ihx, ihy⟩ := ih (Ball.Move64 b) (by rw [mdx]; exact hdx) (by rw [mdy]; exact hdy)
      (by rw [mx]; exact hX1) (by rw [my]; exact hY1) hXn hYn
    simp only [Ball.moveN64]
    rw [ihx, ihy, mx, my, mdx, mdy]
    constructor <;> (push_cast; ring)

/-- C17 as stated fails on the machine: for the ball at `X = 100` with
horizontal velocity `1e30` the truncated velocity is not an `int`; `Move`
leaves `X = -9223372036854775708`, not `100 + 10^30`. -/
theorem move64_counterexample :
    ¬ (∀ b : Ball, InInt64 b.X → InInt64 b.Y →
        (Ball.Move64 b).X = b.X + roundTowardZero b.dxdt
          ∧ (Ball.Move64 b).Y = b.Y + roundTowardZero b.dydt) := by
  intro h
  have hbad := (h farBall (by decide) (by decide)).1
  revert hbad
  rw [← truncToInt_eq_roundTowardZero]
  decide!

/-- C17, amended: for every ball (velocity an exact rational) whose velocity
components rounded toward zero are `int` values and whose new coordinates are
in the `int` range, `Move` adds to `X` and `Y` the velocity components rounded
toward zero and leaves the velocity and the size unchanged; `n` consecutive
`Move`s that start and end in the `int` range displace the ball by
`n * trunc dxdt` and `n * trunc dydt`.  That is not `trunc (n * dxdt)`: with
velocity `(1/2, -3/2)` two `Move`s displace the ball by `(0, -2)` and not by
`(1, -3)`. -/
theorem move64_truncates_each_tick :
    (∀ b : Ball,
        InInt64 (roundTowardZero b.dxdt) → InInt64 (roundTowardZero b.dydt) →
        InInt64 (b.X + roundTowardZero b.dxdt) → InInt64 (b.Y + roundTowardZero b.dydt) →
        (Ball.Move64 b).X = b.X + roundTowardZero b.dxdt
          ∧ (Ball.Move64 b).Y = b.Y + roundTowardZero b.dydt
          ∧ (Ball.Move64 b).dxdt = b.dxdt ∧ (Ball.Move64 b).dydt = b.dydt
          ∧ (Ball.Move64 b).W = b.W ∧ (Ball.Move64 b).H = b.H)
      ∧ (∀ (n : Nat) (b : Ball),
          InInt64 (roundTowardZero b.dxdt) → InInt64 (roundTowardZero b.dydt) →
          InInt64 b.X → InInt64 b.Y →
          InInt64 (b.X + (n : Int) * roundTowardZero b.dxdt) →
          InInt64 (b.Y + (n : Int) * roundTowardZero b.dydt) →
          (Ball.moveN64 n b).X = b.X + (n : Int) * roundTowardZero b.dxdt
            ∧ (Ball.moveN64 n b).Y = b.Y + (n : Int) * roundTowardZero b.dydt)
      ∧ ((Ball.moveN64 2 halfSpeedBall).X = halfSpeedBall.X + 0
          ∧ (Ball.moveN64 2 halfSpeedBall).Y = halfSpeedBall.Y + (-2)
          ∧ roundTowardZero (2 * halfSpeedBall.dxdt) = 1
          ∧ roundTowardZero (2 * halfSpeedBall.dydt) = -3) := by
  refine ⟨move64_spec, moveN64_spec, ?_⟩
  simp only [← truncToInt_eq_roundTowardZero]
  decide!

theorem move64_truncates_each_tick_witness :
    (Ball.Move64 halfSpeedBall).X = 100 + 0 ∧ (Ball.Move64 halfSpeedBall).Y = 100 + (-1)
      ∧ (Ball.moveN64 3 halfSpeedBall).Y = 100 + 3 * (-1) := by
  have hdx : roundTowardZero halfSpeedBall.dxdt = 0 := by
    rw [← truncToInt_eq_roundTowardZero]
    decide!
  have hdy : roundTowardZero halfSpeedBall.dydt = -1 := by
    rw [← truncToInt_eq_roundTowardZero]
    decide!
  have h1 := move64_truncates_each_tick.1 halfSpeedBall (by rw [hdx]; decide)
    (by rw [hdy]; decide) (by rw [hdx]; decide) (by rw [hdy]; decide)
  have h3 := move64_truncates_each_tick.2.1 3 halfSpeedBall (by rw [hdx]; decide)
    (by rw [hdy]; decide) (by decide) (by decide) (by rw [hdx]; decide) (by rw [hdy]; decide)
  rw [hdx, hdy] at h1
  rw [hdy] at h3
  exact ⟨h1.1, h1.2.1, h3.2⟩

/-! ## The speed scalar on the machine -/

theorem collideWithComputerPaddle64_hit (g : Game) (hit : g.hitsComputerPaddle64) :
    Game.CollideWithComputerPaddle64 g =
      { g with
        ball :=
          { g.ball with
            dxdt := float64Round (g.ballSpeed + 1), dydt := float64Round (g.ballSpeed + 1) }
        ballSpeed := float64Round (g.ballSpeed + 1) } := by
  unfold Game.hitsComputerPaddle64 at hit
  simp only [Game.CollideWithComputerPaddle64, hit, and_self, if_true]

theorem collideWithComputerPaddle64_miss (g : Game) (miss : ¬ g.hitsComputerPaddle64) :
    Game.CollideWithComputerPaddle64 g = g := by
  unfold Game.hitsComputerPaddle64 at miss
  simp only [Game.CollideWithComputerPaddle64, miss, if_false]

theorem float64Round_succ (s : ℚ) (hden : s.den = 1) (h0 : 0 ≤ s) (h1 : s ≤ 9007199254740992) :
    (s < 9007199254740992 ∧ float64Round (s + 1) = s + 1)
      ∨ (s = 9007199254740992 ∧ float64Round (s + 1) = s) := by
  rcases lt_or_eq_of_le h1 with hlt | heq
  · left
    exact ⟨hlt, float64Round_whole (s + 1) (den_add_one s hden) (by linarith)
      (den_one_le_succ s hden hlt)⟩
  · right
    refine ⟨heq, ?_⟩
    rw [heq]
    exact float64Round_tie

theorem collideWithComputerPaddle64_speed (g : Game) (hden : g.ballSpeed.den = 1)
    (h0 : 0 ≤ g.ballSpeed) (h1 : g.ballSpeed ≤ 9007199254740992) :
    (Game.CollideWithComputerPaddle64 g).ballSpeed = g.ballSpeed
      ∨ (Game.CollideWithComputerPaddle64 g).ballSpeed = g.ballSpeed + 1 := by
  by_cases hit : g.hitsComputerPaddle64
  · rw [collideWithComputerPaddle64_hit g hit]
    show float64Round (g.ballSpeed + 1) = g.ballSpeed
      ∨ float64Round (g.ballSpeed + 1) = g.ballSpeed + 1
    rcases float64Round_succ g.ballSpeed hden h0 h1 with h | h
    · exact Or.inr h.2
    · exact Or.inl h.2
  · rw [collideWithComputerPaddle64_miss g hit]
    exact Or.inl rfl

theorem collideWithComputerPaddle64_scalarInv (g : Game) (h : ScalarInv64 g) :
    ScalarInv64 (Game.CollideWithComputerPaddle64 g) := by
  obtain ⟨hden, h3, h53⟩ := h
  by_cases hit : g.hitsComputerPaddle64
  · rw [collideWithComputerPaddle64_hit g hit]
    show (float64Round (g.ballSpeed + 1)).den = 1 ∧ 3 ≤ float64Round (g.ballSpeed + 1)
      ∧ float64Round (g.ballSpeed + 1) ≤ 9007199254740992
    rcases float64Round_succ g.ballSpeed hden (by linarith) h53 with h | h
    · rw [h.2]
      exact ⟨den_add_one _ hden, by linarith, den_one_le_succ _ hden h.1⟩
    · rw [h.2]
      exact ⟨hden, h3, h53⟩
  · rw [collideWithComputerPaddle64_miss g hit]
    exact ⟨hden, h3, h53⟩

theorem collideWithComputerPaddle64_scores (g : Game) :
    (Game.CollideWithComputerPaddle64 g).playerScore = g.playerScore
      ∧ (Game.CollideWithComputerPaddle64 g).computerScore = g.computerScore := by
  unfold Game.CollideWithComputerPaddle64
  split_ifs <;> exact ⟨rfl, rfl⟩

theorem collideWithPlayerPaddle64_frame (g : Game) :
    (Game.CollideWithPlayerPaddle64 g).playerScore = g.playerScore
      ∧ (Game.CollideWithPlayerPaddle64 g).computerScore = g.computerScore
      ∧ (Game.CollideWithPlayerPaddle64 g).ballSpeed = g.ballSpeed := by
  unfold Game.CollideWithPlayerPaddle64
  split_ifs <;> exact ⟨rfl, rfl, rfl⟩

theorem collideWithWall64_ballSpeed (scr : Screen) (g : Game) :
    (Game.CollideWithWall64 scr g).ballSpeed = g.ballSpeed
      ∨ (Game.CollideWithWall64 scr g).ballSpeed = 3 := by
  simp only [Game.CollideWithWall64, Game.Reset64, ballSpeed]
  split_ifs <;> simp

theorem collideWithWall64_speed_of_scores (scr : Screen) (g : Game)
    (hp : (Game.CollideWithWall64 scr g).playerScore = g.playerScore)
    (hc : (Game.CollideWithWall64 scr g).computerScore = g.computerScore) :
    (Game.CollideWithWall64 scr g).ballSpeed = g.ballSpeed := by
  have hps := wrap64_succ_ne g.playerScore
  have hcs := wrap64_succ_ne g.computerScore
  simp only [Game.CollideWithWall64, Game.Reset64] at hp hc ⊢
  split_ifs at hp hc ⊢ <;> simp_all

theorem collideWithWall64_scalarInv (scr : Screen) (g : Game) (h : ScalarInv64 g) :
    ScalarInv64 (Game.CollideWithWall64 scr g) := by
  unfold ScalarInv64 at h ⊢
  rcases collideWithWall64_ballSpeed scr g with hs | hs
  · rw [hs]
    exact h
  · rw [hs]
    exact ⟨rfl, le_refl _, by norm_num⟩

theorem update64_eq (scr : Screen) (keys : Keys) (g : Game) :
    Game.Update64 scr keys g =
      Game.CollideWithComputerPaddle64 (Game.CollideWithPlayerPaddle64
        (Game.CollideWithWall64 scr (Game.moveAll64 scr keys g))) := rfl

theorem update64_scalarInv (scr : Screen) (keys : Keys) (g : Game) (h : ScalarInv64 g) :
    ScalarInv64 (Game.Update64 scr keys g) := by
  rw [update64_eq]
  apply collideWithComputerPaddle64_scalarInv
  have hw := collideWithWall64_scalarInv scr (Game.moveAll64 scr keys g) h
  unfold ScalarInv64 at hw ⊢
  rw [(collideWithPlayerPaddle64_frame _).2.2]
  exact hw

theorem reachable64_scalarInv (scr : Screen) (g : Game) (h : Reachable64 scr g) :
    ScalarInv64 g := by
  induction h with
  | init => exact ⟨rfl, le_refl _, by norm_num [mainGame64, ballSpeed]⟩
  | tick keys g _ ih => exact update64_scalarInv scr keys g ih

theorem update64_speed_of_scores (scr : Screen) (keys : Keys) (g : Game)
    (hden : g.ballSpeed.den = 1) (h0 : 0 ≤ g.ballSpeed) (h1 : g.ballSpeed ≤ 9007199254740992)
    (hp : (Game.Update64 scr keys g).playerScore = g.playerScore)
    (hc : (Game.Update64 scr keys g).computerScore = g.computerScore) :
    (Game.Update64 scr keys g).ballSpeed = g.ballSpeed
      ∨ (Game.Update64 scr keys g).ballSpeed = g.ballSpeed + 1 := by
  rw [update64_eq] at hp hc ⊢
  rw [(collideWithComputerPaddle64_scores _).1, (collideWithPlayerPaddle64_frame _).1] at hp
  rw [(collideWithComputerPaddle64_scores _).2, (collideWithPlayerPaddle64_frame _).2.1] at hc
  have hw : (Game.CollideWithWall64 scr (Game.moveAll64 scr keys g)).ballSpeed = g.ballSpeed :=
    collideWithWall64_speed_of_scores scr (Game.moveAll64 scr keys g) hp hc
  have hpp : (Game.CollideWithPlayerPaddle64
      (Game.CollideWithWall64 scr (Game.moveAll64 scr keys g))).ballSpeed = g.ballSpeed := by
    rw [(collideWithPlayerPaddle64_frame _).2.2, hw]
  have hcc := collideWithComputerPaddle64_speed
    (Game.CollideWithPlayerPaddle64 (Game.CollideWithWall64 scr (Game.moveAll64 scr keys g)))
    (by rw [hpp]; exact hden) (by rw [hpp]; exact h0) (by rw [hpp]; exact h1)
  rw [hpp] at hcc
  exact hcc

/-- A tick that starts from a fractional speed scalar: from `fractionalHitState`
(scalar the `float64` nearest to 3.1) one `Update` leaves both scores unchanged
and a scalar that is `2^-51` below the exact `s + 1`, because the `float64`
addition rounds. -/
theorem update64_fractional_scalar :
    (Game.Update64 hdScreen noKey fractionalHitState).playerScore = fractionalHitState.playerScore
      ∧ (Game.Update64 hdScreen noKey fractionalHitState).computerScore
          = fractionalHitState.computerScore
      ∧ (Game.Update64 hdScreen noKey fractionalHitState).ballSpeed
          = fractionalHitState.ballSpeed + 1 - 1 / 2251799813685248
      ∧ fractionalHitState.ballSpeed.den ≠ 1 := by
  decide!

/-- C13: on the machine (64-bit `int`, `float64` scalar), the speed scalar is at
least the base speed 3 in every state reachable from the state built by `main`
by `Update` ticks, and in every `Update` tick of such a match in which neither
score counter changes the scalar is unchanged or exactly 1 greater than before
the tick.  The second part holds from every state whose scalar is a whole
number between 0 and `2^53`, which every reachable state is. -/
theorem ballSpeed64_never_below_base :
    (∀ (scr : Screen) (g : Game), Reachable64 scr g → 3 ≤ g.ballSpeed)
      ∧ (∀ (scr : Screen) (keys : Keys) (g : Game), Reachable64 scr g →
          (Game.Update64 scr keys g).playerScore = g.playerScore →
          (Game.Update64 scr keys g).computerScore = g.computerScore →
          (Game.Update64 scr keys g).ballSpeed = g.ballSpeed
            ∨ (Game.Update64 scr keys g).ballSpeed = g.ballSpeed + 1)
      ∧ (∀ (scr : Screen) (keys : Keys) (g : Game),
          g.ballSpeed.den = 1 → 0 ≤ g.ballSpeed → g.ballSpeed ≤ 9007199254740992 →
          (Game.Update64 scr keys g).playerScore = g.playerScore →
          (Game.Update64 scr keys g).computerScore = g.computerScore →
          (Game.Update64 scr keys g).ballSpeed = g.ballSpeed
            ∨ (Game.Update64 scr keys g).ballSpeed = g.ballSpeed + 1) := by
  refine ⟨?_, ?_, update64_speed_of_scores⟩
  · intro scr g hg
    exact (reachable64_scalarInv scr g hg).2.1
  · intro scr keys g hg hp hc
    obtain ⟨hden, h3, h53⟩ := reachable64_scalarInv scr g hg
    exact update64_speed_of_scores scr keys g hden (by linarith) h53 hp hc

theorem ballSpeed64_never_below_base_witness :
    3 ≤ (Game.Update64 hdScreen noKey (mainGame64 hdScreen)).ballSpeed
      ∧ ((Game.Update64 hdScreen noKey leftMovingHitState).ballSpeed = 3
          ∨ (Game.Update64 hdScreen noKey leftMovingHitState).ballSpeed = 3 + 1) :=
  ⟨ballSpeed64_never_below_base.1 hdScreen _ (Reachable64.tick noKey _ Reachable64.init),
    ballSpeed64_never_below_base.2.2 hdScreen noKey leftMovingHitState (by decide!) (by decide!)
      (by decide!) (by decide!) (by decide!)⟩

/-- C8 as stated fails on the machine: `saturatedHitState` passes the
computer-paddle test with speed scalar `2^53 ≥ 3`; the `float64` sum
`2^53 + 1` rounds back to `2^53`, so after `CollideWithComputerPaddle` the
scalar is still `2^53`, not `s + 1`. -/
theorem collideWithComputerPaddle64_counterexample :
    ¬ (∀ g : Game, float64Round g.ballSpeed = g.ballSpeed → 3 ≤ g.ballSpeed →
        g.hitsComputerPaddle64 →
        (Game.CollideWithComputerPaddle64 g).ballSpeed = g.ballSpeed + 1
          ∧ (Game.CollideWithComputerPaddle64 g).ball.dydt = g.ballSpeed + 1
          ∧ 0 < (Game.CollideWithComputerPaddle64 g).ball.dydt) := by
  intro h
  have hbad := (h saturatedHitState (by decide!) (by decide!) (by decide!)).1
  revert hbad
  decide!

/-- C8, amended: when the ball passes the computer-paddle test as the code
evaluates it and the speed scalar `s` is a whole number with `3 ≤ s < 2^53`,
`CollideWithComputerPaddle` leaves the scalar at `s + 1` and the vertical
velocity at `s + 1`, a positive value, whatever the vertical velocity was
before. -/
theorem collideWithComputerPaddle64_vertical (g : Game)
    (hden : g.ballSpeed.den = 1) (hs : 3 ≤ g.ballSpeed) (hlt : g.ballSpeed < 9007199254740992)
    (hit : g.hitsComputerPaddle64) :
    (Game.CollideWithComputerPaddle64 g).ballSpeed = g.ballSpeed + 1
      ∧ (Game.CollideWithComputerPaddle64 g).ball.dydt = g.ballSpeed + 1
      ∧ 0 < (Game.CollideWithComputerPaddle64 g).ball.dydt := by
  have hround : float64Round (g.ballSpeed + 1) = g.ballSpeed + 1 :=
    float64Round_whole (g.ballSpeed + 1) (den_add_one _ hden) (by linarith)
      (den_one_le_succ _ hden hlt)
  rw [collideWithComputerPaddle64_hit g hit]
  refine ⟨hround, hround, ?_⟩
  show 0 < float64Round (g.ballSpeed + 1)
  rw [hround]
  linarith

theorem collideWithComputerPaddle64_vertical_witness :
    leftMovingHitState.ball.dydt = -3
      ∧ (Game.CollideWithComputerPaddle64 leftMovingHitState).ballSpeed = 3 + 1
      ∧ (Game.CollideWithComputerPaddle64 leftMovingHitState).ball.dydt = 3 + 1
      ∧ 0 < (Game.CollideWithComputerPaddle64 leftMovingHitState).ball.dydt :=
  ⟨rfl, collideWithComputerPaddle64_vertical leftMovingHitState (by decide!) (by decide!)
    (by decide!) (by decide!)⟩

end Pong
